import Mathlib

/-!
# MedusaDecodingLayer: setup and forward bookkeeping

A shallow embedding of `cpp/tensorrt_llm/layers/medusaDecodingLayer.cpp`.

Conventions of the embedding

* `SizeType32` and `TokenIdType` values (top-k values, cumulative offsets, token ids) are
  signed 32-bit integers: they are `Int`s, and the one place where the layer adds them
  (`cummulativeTopK += ...`) wraps through `wrapInt32`.
* Sizes and indices (`batchSize`, `maxDraftPathLen`, batch slots, flat indices) are `Nat`s;
  index arithmetic is assumed not to overflow and a negative slot is not a valid index.
* Device and pinned buffers are total maps from element index to value (`Buffer`); the
  in-bounds behaviour is that of the fixed-capacity buffers of `allocateBuffer`.
* Host `std::vector`s keep their size and are `List`s.
* `TLLM_CHECK_WITH_INFO` throws: the functions return the error together with the layer
  state reached at the throw (`Outcome`).
* An unchecked read that leaves its vector is undefined in the source; the model stops the
  call at that read with the marker `readPastEndOfVector`, and no theorem describes the
  source beyond it.
* Staging copies host to device (`mBufferManager->copy` into `mSetupWorkspaceDevice` and
  `mRandomSeedsDevice`) are folded into the kernel that reads the staged data.
-/

namespace MedusaDecodingLayer

/-! ## Basic types -/

/-- Two's complement wrap of an integer into the range of `SizeType32` (`std::int32_t`). -/
def wrapInt32 (x : Int) : Int := (x + 2147483648) % 4294967296 - 2147483648

/-- Predicate: the integer is representable as a `SizeType32`. -/
def InInt32 (x : Int) : Prop := -2147483648 ≤ x ∧ x < 2147483648

instance (x : Int) : Decidable (InInt32 x) := by unfold InInt32; exact inferInstance

/-- A device or pinned buffer, addressed by element index. -/
abbrev Buffer (α : Type) := Nat → α

/-- The store `buf[i] = v`. -/
def Buffer.write {α : Type} (buf : Buffer α) (i : Nat) (v : α) : Buffer α :=
  fun j => if j = i then v else buf j

/-- A buffer holding the elements of `xs` from index 0 on, and `d` past them. -/
def Buffer.ofList {α : Type} (xs : List α) (d : α) : Buffer α := fun i => xs.getD i d

/-- The loop `for (i = 0; i < n; ++i) body(i)` as a state transformer: iteration `n` runs
on the state left by iterations `0 .. n-1`. -/
def forRange {σ : Type} (n : Nat) (body : Nat → σ → σ) (init : σ) : σ :=
  match n with
  | 0 => init
  | k + 1 => body k (forRange k body init)

/-- The state of one `curandState_t`: the seed it was initialised with and the number of
draws made since (`curand_init(seed, 0, 0, &state)` starts the sequence at draw 0). -/
structure CurandState where
  seed : Nat
  draws : Nat
  deriving DecidableEq, Repr

/-- The state `curand_init(seed, 0, 0, &state)` leaves. -/
def curandInit (seed : Nat) : CurandState := ⟨seed, 0⟩

/-- The failures of the layer: one constructor per `TLLM_CHECK_WITH_INFO` message, plus
`std::bad_optional_access` of `.value()` on an empty optional, plus the marker of the one
unchecked read of `setup` that can leave its vector. -/
inductive LayerError where
  /-- "Random seed vector size mismatch." -/
  | randomSeedSizeMismatch
  /-- "runtimeTopK.size() (%lu) == batchSize (%d) is not satisfied!" -/
  | runtimeTopKSizeMismatch (size batchSize : Nat)
  /-- "Batch slots must be provided for MedusaDecoding" -/
  | batchSlotsMissing
  /-- "Sequence lengths must be provided for MedusaDecoding" -/
  | sequenceLengthsMissing
  /-- "Draft ids must be provided for MedusaDecoding" -/
  | draftIdsMissing
  /-- "Accepted lengths must be provided for MedusaDecoding" -/
  | acceptedLengthsMissing
  /-- "Current tokens per step must be provided for MedusaDecoding" -/
  | curTokensPerStepMissing
  /-- "Target tokens per step must be provided for MedusaDecoding" -/
  | targetTokensPerStepMissing
  /-- "Tokens per step must be provided for MedusaDecoding" -/
  | tokensPerStepMissing
  /-- "Tree ids must be provided for MedusaDecoding" -/
  | treeIdsMissing
  /-- "numNewTokensCumSum must be provided for MedusaDecoding" -/
  | numNewTokensCumSumMissing
  /-- "pathsOffsets must be provided for MedusaDecoding" -/
  | pathsOffsetsMissing
  /-- The exception of `std::optional::value()` on an empty optional. -/
  | badOptionalAccess
  /-- Not an exception: the call has reached the read
  `runtimeHeadsTopKFlatten[bi * maxDraftPathLen + hi]` of line 222 with an index past the end
  of the vector. The read is undefined in the source; the model stops the call there and
  says nothing about what the source does from then on. -/
  | readPastEndOfVector
  deriving DecidableEq, Repr

/-- What a call leaves behind: the error thrown, if any, and the state at that point. -/
structure Outcome (σ : Type) where
  error : Option LayerError
  state : σ

/-- The part of `DecoderDomain` the layer reads. -/
structure DecoderDomain where
  /-- `getBatchSize()`: the capacity of the batch, in slots. -/
  batchSize : Nat
  /-- `getMaxDecodingTokens()`. -/
  maxDecodingTokens : Nat
  /-- `getSpeculativeDecodingModule()->getMaxDraftPathLen()`: the number of Medusa heads. -/
  maxDraftPathLen : Nat
  /-- `getSpeculativeDecodingModule()->getMaxPathLen()`. -/
  maxPathLen : Nat
  /-- `getVocabSize()`. -/
  vocabSize : Nat
  /-- `getVocabSizePadded()`. -/
  vocabSizePadded : Nat

/-- `MedusaSetupParams`: the three optional vectors `setup` reads. -/
structure MedusaSetupParams where
  randomSeed : Option (List Nat)
  runtimeTopK : Option (List Int)
  runtimeHeadsTopK : Option (List (List Int))

/-- The member buffers and scalars of the layer. Logits pointers are handles (`Nat`), a
pointer into `mNewDraftTokensDevice` is the element offset from its start. -/
structure LayerState where
  mCurandStatesDevice : Buffer CurandState
  mCurandStatesMedusaLogitsDevice : Buffer CurandState
  mTiledBatchSlotsSetup : Buffer Nat
  mTiledBatchSlotsForward : Buffer Nat
  mRuntimeTopKDevice : Buffer Int
  mRuntimeTopKPerRequestPerMedusaHeadDevice : Buffer Int
  mCummulativeTopK : Buffer Int
  mRuntimeMaxTopK : Int
  mRuntimeMaxTopKPerRequestPerMedusaHead : Int
  mTargetTokensDevice : Buffer Int
  mNewDraftTokensDevice : Buffer Int
  mDraftIdsPtrHost : Buffer Int
  mMedusaInputLogitsPtrs : Buffer Nat
  mMedusaSelectedLogitsPtrsDevice : Buffer Nat
  mBestPathIdsDevice : Buffer Int

/-! ## Kernels called by `setup` -/

/-- `DefaultDecodingParams::getSeed()`; the header is not part of the sources, the value is
the one the comment at the call site states ("using the default seed 0"). -/
def DefaultDecodingParams.getSeed : Nat := 0

/-- Modelled from the spec: the kernel behind `invokeCurandInitialize` (one broadcast seed,
"supports independent seeding per row from ... one broadcast seed"): row `bi` of the batch
initialises the state at index `batchSlots[bi]` with `randomSeed`. -/
def invokeCurandInitialize (states : Buffer CurandState) (batchSlots : Buffer Nat)
    (batchSize : Nat) (randomSeed : Nat) : Buffer CurandState :=
  forRange batchSize (fun bi s => s.write (batchSlots bi) (curandInit randomSeed)) states

/-- Modelled from the spec: the kernel behind `invokeCurandBatchInitialize` ("one seed per
row"): row `bi` initialises the state at index `batchSlots[bi]` with `randomSeeds[bi]`. -/
def invokeCurandBatchInitialize (states : Buffer CurandState) (batchSlots : Buffer Nat)
    (batchSize : Nat) (randomSeeds : List Nat) : Buffer CurandState :=
  forRange batchSize
    (fun bi s => s.write (batchSlots bi) (curandInit (randomSeeds.getD bi 0))) states

/-- Modelled from the spec: the kernel behind `invokeScatterDecodingParams`: row `bi`
stores `src[bi]` at `dst[batchSlots[bi]]`. -/
def invokeScatterDecodingParams (src : List Int) (dst : Buffer Int) (batchSlots : Buffer Nat)
    (batchSize : Nat) : Buffer Int :=
  forRange batchSize (fun bi d => d.write (batchSlots bi) (src.getD bi 0)) dst

/-! ## `setup` -/

/-- The lambda `initCurandStates` of `setup` (lines 116-145). -/
def initCurandStates (randomSeed : Option (List Nat)) (batchSize : Nat)
    (batchSlots : Buffer Nat) (statesDevice : Buffer CurandState) :
    Except LayerError (Buffer CurandState) :=
  match randomSeed with
  | some seeds =>
    if seeds.length = 1 then
      .ok (invokeCurandInitialize statesDevice batchSlots batchSize (seeds.headD 0))
    else if seeds.length = batchSize then
      .ok (invokeCurandBatchInitialize statesDevice batchSlots batchSize seeds)
    else .error .randomSeedSizeMismatch
  | none =>
    .ok (invokeCurandInitialize statesDevice batchSlots batchSize DefaultDecodingParams.getSeed)

/-- The vector `tiledRandomSeed` of `setup` (lines 151-162): `batchSize * maxDraftPathLen`
zeros, overwritten with the tiled request seeds only when `randomSeed.size() > 1`. -/
def tiledRandomSeed (randomSeed : List Nat) (batchSize maxDraftPathLen : Nat) : List Nat :=
  let zeros := List.replicate (batchSize * maxDraftPathLen) 0
  if randomSeed.length > 1 then
    forRange batchSize (fun bi v =>
      forRange maxDraftPathLen (fun hi v =>
        v.set (bi * maxDraftPathLen + hi) (randomSeed.getD bi 0)) v) zeros
  else zeros

/-- The first tiling of the batch slots (lines 163-171):
`tiledBatchSlots[bi * maxDraftPathLen + hi] = batchSlotsRange[bi] + hi`. -/
def tileBatchSlotsForSeeds (batchSize maxDraftPathLen : Nat) (batchSlots : Buffer Nat)
    (tiledBatchSlots : Buffer Nat) : Buffer Nat :=
  forRange batchSize (fun bi t =>
    forRange maxDraftPathLen (fun hi t =>
      t.write (bi * maxDraftPathLen + hi) (batchSlots bi + hi)) t) tiledBatchSlots

/-- The second tiling of the batch slots (lines 226-233):
`tiledBatchSlots[bi * maxDraftPathLen + hi] = maxDraftPathLen * batchSlotsRange[bi] + hi`. -/
def tileBatchSlotsForTopK (batchSize maxDraftPathLen : Nat) (batchSlots : Buffer Nat)
    (tiledBatchSlots : Buffer Nat) : Buffer Nat :=
  forRange batchSize (fun bi t =>
    forRange maxDraftPathLen (fun hi t =>
      t.write (bi * maxDraftPathLen + hi) (maxDraftPathLen * batchSlots bi + hi)) t)
    tiledBatchSlots

/-- The value of `*std::max_element(begin, end)`. For an empty vector the source
dereferences `end()`, which is undefined; the model yields 0 there. -/
def maxElement (xs : List Int) : Int :=
  match xs with
  | [] => 0
  | x :: rest => rest.foldl max x

/-- The lambda `prepareRuntimeTopK` of `setup` (lines 176-191): the size check, the scatter
of the values to their slots, and the maximum of the vector as result. -/
def prepareRuntimeTopK (runtimeTopK : List Int) (batchSize : Nat) (batchSlots : Buffer Nat)
    (runtimeTopKDevice : Buffer Int) : Except LayerError (Buffer Int × Int) :=
  if runtimeTopK.length = batchSize then
    .ok (invokeScatterDecodingParams runtimeTopK runtimeTopKDevice batchSlots batchSize,
      maxElement runtimeTopK)
  else .error (.runtimeTopKSizeMismatch runtimeTopK.length batchSize)

/-- The vector `runtimeHeadsTopKFlatten` of `setup` (lines 200-212): the rows appended in
order when the optional holds a vector with at least one row, else
`batchSize * maxDraftPathLen` times the default top-k 1. -/
def runtimeHeadsTopKFlatten (runtimeHeadsTopK : Option (List (List Int)))
    (batchSizeMaxNumHeads : Nat) : List Int :=
  match runtimeHeadsTopK with
  | some rows =>
    if rows.length ≠ 0 then rows.foldl (fun acc sub => acc ++ sub) []
    else List.replicate batchSizeMaxNumHeads 1
  | none => List.replicate batchSizeMaxNumHeads 1

/-- The inner loop of lines 218-223 for one request: stores the running sum at
`slot * maxDraftPathLen + hi`, then adds the head's top-k to it. The state is the table
and the local `cummulativeTopK`. The read `runtimeHeadsTopKFlatten[bi * maxDraftPathLen + hi]`
is unchecked in the source; `setup` runs the loop only when every index of the loop is inside
the vector, so the default of `getD` is never read there. -/
def cumulativeTopKRow (maxDraftPathLen : Nat) (flat : List Int) (bi slot : Nat)
    (table : Buffer Int) : Buffer Int × Int :=
  forRange maxDraftPathLen (fun hi s =>
    (s.1.write (slot * maxDraftPathLen + hi) s.2,
      wrapInt32 (s.2 + flat.getD (bi * maxDraftPathLen + hi) 0))) (table, 0)

/-- The loop of lines 214-224 that fills `mCummulativeTopK`. -/
def cumulativeTopKLoop (batchSize maxDraftPathLen : Nat) (batchSlots : Buffer Nat)
    (flat : List Int) (table : Buffer Int) : Buffer Int :=
  forRange batchSize (fun bi t =>
    (cumulativeTopKRow maxDraftPathLen flat bi (batchSlots bi) t).1) table

/-- `MedusaDecodingLayer<T>::setup` (lines 107-242). `beamWidth` is not read by the body
and is left out. The offset loop of lines 214-224 reads the flattened per-head top-k at every
index below `batchSize * maxDraftPathLen` before `prepareRuntimeTopK` checks its size; when
the vector is shorter than that the read is undefined, and the outcome is
`readPastEndOfVector` with the state before the loop. -/
def setup (dom : DecoderDomain) (st : LayerState) (batchSize : Nat) (batchSlots : Buffer Nat)
    (setupParams : MedusaSetupParams) : Outcome LayerState :=
  match initCurandStates setupParams.randomSeed batchSize batchSlots st.mCurandStatesDevice with
  | .error e => ⟨some e, st⟩
  | .ok states =>
    let st1 := { st with mCurandStatesDevice := states }
    let maxDraftPathLen := dom.maxDraftPathLen
    let batchSizeMaxNumHeads := batchSize * maxDraftPathLen
    let randomSeed := setupParams.randomSeed.getD (List.replicate batchSize 0)
    let tiledSeed := tiledRandomSeed randomSeed batchSize maxDraftPathLen
    let st2 := { st1 with mTiledBatchSlotsSetup :=
      tileBatchSlotsForSeeds batchSize maxDraftPathLen batchSlots st1.mTiledBatchSlotsSetup }
    match initCurandStates (some tiledSeed) batchSizeMaxNumHeads st2.mTiledBatchSlotsSetup
        st2.mCurandStatesMedusaLogitsDevice with
    | .error e => ⟨some e, st2⟩
    | .ok headStates =>
      let st3 := { st2 with mCurandStatesMedusaLogitsDevice := headStates }
      let runtimeTopK := setupParams.runtimeTopK.getD (List.replicate batchSize 1)
      match prepareRuntimeTopK runtimeTopK batchSize batchSlots st3.mRuntimeTopKDevice with
      | .error e => ⟨some e, st3⟩
      | .ok (topKDevice, curMaxTopK) =>
        let st4 := { st3 with
          mRuntimeTopKDevice := topKDevice,
          mRuntimeMaxTopK := max st3.mRuntimeMaxTopK curMaxTopK }
        let flat := runtimeHeadsTopKFlatten setupParams.runtimeHeadsTopK batchSizeMaxNumHeads
        if flat.length < batchSizeMaxNumHeads then ⟨some .readPastEndOfVector, st4⟩
        else
          let table :=
            cumulativeTopKLoop batchSize maxDraftPathLen batchSlots flat st4.mCummulativeTopK
          let st5 := { st4 with mCummulativeTopK := table }
          let tiled :=
            tileBatchSlotsForTopK batchSize maxDraftPathLen batchSlots st5.mTiledBatchSlotsSetup
          let st6 := { st5 with mTiledBatchSlotsSetup := tiled }
          match prepareRuntimeTopK flat batchSizeMaxNumHeads st6.mTiledBatchSlotsSetup
              st6.mRuntimeTopKPerRequestPerMedusaHeadDevice with
          | .error e => ⟨some e, st6⟩
          | .ok (headsTopKDevice, curMaxHeadsTopK) =>
            ⟨none, { st6 with
              mRuntimeTopKPerRequestPerMedusaHeadDevice := headsTopKDevice,
              mRuntimeMaxTopKPerRequestPerMedusaHead :=
                max st6.mRuntimeMaxTopKPerRequestPerMedusaHead curMaxHeadsTopK }⟩

/-- A finite sequence of `setup` calls on one layer; it stops at the first call that
does not succeed. A call is the triple (batchSize, batchSlots, setupParams). -/
def setupSequence (dom : DecoderDomain) (st : LayerState)
    (calls : List (Nat × Buffer Nat × MedusaSetupParams)) : Outcome LayerState :=
  match calls with
  | [] => ⟨none, st⟩
  | (batchSize, batchSlots, setupParams) :: rest =>
    match setup dom st batchSize batchSlots setupParams with
    | ⟨none, st1⟩ => setupSequence dom st1 rest
    | ⟨some e, st1⟩ => ⟨some e, st1⟩

/-! ## The forward step: parameter bundles and external kernels -/

/-- The store `ptr[i] = v` through a signed element offset; an offset below the start of
the buffer is out of bounds and stores nothing in the model. -/
def Buffer.writeAt {α : Type} (buf : Buffer α) (i : Int) (v : α) : Buffer α :=
  if 0 ≤ i then buf.write i.toNat v else buf

/-- `MedusaDecodingInputs`, as far as the layer reads it. `logits` and `curTokensPerStep` are
`std::optional`s read with `.value()`; the other tensors are pointers that may be null
(`none`). Of `logits` only the first dimension, the batch size, is read. `medusaLogits`
gives the handle of the logits tensor of (slot, head). -/
structure MedusaDecodingInputs where
  logits : Option Nat
  batchSlots : Option (Buffer Nat)
  curTokensPerStep : Option (Buffer Int)
  targetTokensPerStep : Option (Buffer Int)
  endIds : Option (Buffer Int)
  paths : Option (Buffer Int)
  treeIds : Option (Buffer Int)
  medusaLogits : Nat → Nat → Nat

/-- `SpeculativeDecodingOutputs`, as far as the layer reads it. `numNewTokens` is a
`std::optional` read with `.value()`; `maxSeqLen` is the last dimension of `outputIds`;
`finished` holds `FinishedState::UnderlyingType` values. -/
structure SpeculativeDecodingOutputs where
  outputIds : Option (Buffer Int)
  maxSeqLen : Nat
  sequenceLength : Option (Buffer Int)
  numNewTokens : Option (Buffer Int)
  nextDraftTokens : Option (Buffer Int)
  finished : Option (Buffer Nat)
  numNewTokensCumSum : Option (Buffer Int)
  pathsOffsets : Option (Buffer Int)

/-- The kernels a forward step launches, in the order of `forwardAsync`. -/
inductive KernelLaunch where
  | primeHeadSampling
  | acceptDraftTokensByIdsWithPaths
  | medusaHeadsSampling
  | scatterMedusaDraftTokens
  | packAcceptedPaths
  deriving DecidableEq, Repr

/-- The state a forward step works on: the layer, the output tensors, and the record of
the kernels launched so far. -/
structure StepState where
  layer : LayerState
  outputs : SpeculativeDecodingOutputs
  launched : List KernelLaunch

/-- The arguments of `acceptDraftTokensByIdsWithPaths` (lines 363-367). -/
structure AcceptArgs where
  outputIds : Option (Buffer Int)
  draftIds : Buffer Int
  targetIds : Buffer Int
  sequenceLengths : Buffer Int
  numNewTokens : Buffer Int
  finishedFinal : Option (Buffer Nat)
  batchSlots : Buffer Nat
  paths : Option (Buffer Int)
  endIds : Option (Buffer Int)
  medusaLogits : Buffer Nat
  logitsPtrs : Buffer Nat
  curTokensPerStep : Buffer Int
  targetTokensPerStep : Buffer Int
  bestPathIds : Buffer Int
  batchSize : Nat
  vocabSize : Nat
  maxBatchSize : Nat
  maxSeqLen : Nat
  maxDraftPathLen : Nat
  maxDecodingTokens : Nat

/-- What `acceptDraftTokensByIdsWithPaths` writes: the output sequences, the sequence
lengths, the accepted lengths, the finished flags, the selected logits pointers and the
best path ids. -/
structure AcceptResult where
  outputIds : Option (Buffer Int)
  sequenceLengths : Buffer Int
  numNewTokens : Buffer Int
  finishedFinal : Option (Buffer Nat)
  logitsPtrs : Buffer Nat
  bestPathIds : Buffer Int

/-- The arguments of `scatterMedusaDraftTokens` (lines 450-451). -/
structure ScatterArgs where
  draftIds : Buffer Int
  newDraftTokens : Buffer Int
  treeIds : Buffer Int
  tokensPerStep : Buffer Int
  batchSlots : Buffer Nat
  maxDecodingTokens : Nat
  batchSize : Nat

/-- The arguments of `invokePackAcceptedPaths` (lines 474-476). -/
structure PackArgs where
  numNewTokensCumSum : Buffer Int
  pathsOffsets : Buffer Int
  numNewTokens : Buffer Int
  bestPathIds : Buffer Int
  paths : Option (Buffer Int)
  batchSlots : Buffer Nat
  batchSize : Nat
  maxDecodingTokens : Nat
  maxPathLen : Nat

/-- The kernels of the repository the layer calls whose sources are not part of this file.
They are parameters of the forward step: the verification, scatter and packing kernels as
functions from their arguments to what they write, and the sampling kernel through the
token it draws. `drawToken logits topK rng tokenIdx ki` is candidate `ki` of the top-`topK`
draw from the logits with handle `logits`, at token position `tokenIdx`, with the generator
state `rng` the row has when the kernel is launched. -/
structure ExternalKernels where
  drawToken : Nat → Int → CurandState → Nat → Nat → Int
  acceptDraftTokensByIdsWithPaths : AcceptArgs → AcceptResult
  scatterMedusaDraftTokens : ScatterArgs → Buffer Int
  invokePackAcceptedPaths : PackArgs → Buffer Int × Buffer Int

/-- `TopKSamplingKernelParams<T>`, the fields the layer sets; a field the layer leaves at
its default (`sequenceLengths`, `finishedInput`, `skipDecode`, `endIds`, all null) is not
part of the model. `outputIds` is the buffer the tokens go to, `outputIdsPtrs`, when set,
the per-row start offsets into it; `logProbsPtrs`, when set, the per-row logits handles. -/
structure TopKSamplingKernelParams where
  logProbsPtrs : Option (Buffer Nat)
  outputIds : Buffer Int
  outputIdsPtrs : Option (Buffer Int)
  maxTopK : Int
  topKs : Buffer Int
  batchSlots : Buffer Nat
  curandState : Buffer CurandState
  batchSize : Nat
  maxBatchSize : Nat
  tokensPerStep : Option (Buffer Int)
  maxTokensPerStep : Nat
  maxSeqLen : Nat
  vocabSizePadded : Nat
  returnAllTopK : Bool

/-- Whether the sampling kernel samples token position `tokenIdx` of the row in slot
`batchSlot`: every position below `maxTokensPerStep` when `tokensPerStep` is null, else the
positions below `tokensPerStep[batchSlot]`. -/
def TopKSamplingKernelParams.samples (p : TopKSamplingKernelParams) (batchSlot tokenIdx : Nat) :
    Bool :=
  match p.tokensPerStep with
  | some tokensPerStep => decide ((tokenIdx : Int) < tokensPerStep batchSlot)
  | none => true

/-- The element offset at which the row in slot `batchSlot` starts in `outputIds`:
`outputIdsPtrs[batchSlot]` in pointer mode, else `batchSlot * maxSeqLen`. -/
def TopKSamplingKernelParams.rowStart (p : TopKSamplingKernelParams) (batchSlot : Nat) : Int :=
  match p.outputIdsPtrs with
  | some ptrs => ptrs batchSlot
  | none => ((batchSlot * p.maxSeqLen : Nat) : Int)

/-- The logits handle of row `bi`, token position `tokenIdx`: `logProbsPtrs[...]` in
pointer mode, else the row index into the flat `[batchSize, maxTokensPerStep, vocab]`
logits. -/
def TopKSamplingKernelParams.logitsOf (p : TopKSamplingKernelParams) (bi tokenIdx : Nat) : Nat :=
  match p.logProbsPtrs with
  | some ptrs => ptrs (bi * p.maxTokensPerStep + tokenIdx)
  | none => bi * p.maxTokensPerStep + tokenIdx

/-- The tokens one sampled (row, token position) stores: all `topKs[batchSlot]` candidates
from the row start on when `returnAllTopK` is set, else the one drawn token at offset
`tokenIdx` of the row. -/
def topKSampleStore (K : ExternalKernels) (p : TopKSamplingKernelParams) (bi tokenIdx : Nat)
    (out : Buffer Int) : Buffer Int :=
  let batchSlot := p.batchSlots bi
  let k := p.topKs batchSlot
  let draw := K.drawToken (p.logitsOf bi tokenIdx) k (p.curandState batchSlot) tokenIdx
  if p.returnAllTopK then
    forRange k.toNat (fun ki o => o.writeAt (p.rowStart batchSlot + tokenIdx + ki) (draw ki)) out
  else out.writeAt (p.rowStart batchSlot + tokenIdx) (draw 0)

/-- Modelled from the spec: the kernel behind `invokeBatchTopKSampling`, the "top-k sampling
kernel" of the external interfaces, with its "one token per row" and "all topK tokens per
row" modes and its flat and pointer-indirected batch modes. The rows are the
`batchSize` requests of the launch, row `bi` working on slot `batchSlots[bi]`; the token
positions of a row are those `tokensPerStep` admits, as the call sites set it up ("Sample
multiple tokens per request", line 303). The result is the output buffer and the generator
states, each sampled position advancing the state of its slot by one draw. -/
def invokeBatchTopKSampling (K : ExternalKernels) (p : TopKSamplingKernelParams) :
    Buffer Int × Buffer CurandState :=
  (forRange p.batchSize (fun bi out =>
      forRange p.maxTokensPerStep (fun tokenIdx out =>
        if p.samples (p.batchSlots bi) tokenIdx then topKSampleStore K p bi tokenIdx out
        else out) out) p.outputIds,
    forRange p.batchSize (fun bi rng =>
      forRange p.maxTokensPerStep (fun tokenIdx rng =>
        if p.samples (p.batchSlots bi) tokenIdx then
          rng.write (p.batchSlots bi) ⟨(rng (p.batchSlots bi)).seed,
            (rng (p.batchSlots bi)).draws + 1⟩
        else rng) rng) p.curandState)

/-! ## The five stages of `forwardAsync` -/

/-- The `params` of `samplePrimeHeadTokens` (lines 288-301): flat logits and flat output
`mTargetTokensDevice`, rows of `maxDecodingTokens` entries, the token positions of a request
bounded by `tokensPerStep`. -/
def primeHeadSamplingParams (dom : DecoderDomain) (layer : LayerState) (batchSize : Nat)
    (batchSlots : Buffer Nat) (tokensPerStepDevice : Buffer Int) : TopKSamplingKernelParams :=
  { logProbsPtrs := none,
    outputIds := layer.mTargetTokensDevice,
    outputIdsPtrs := none,
    maxTopK := layer.mRuntimeMaxTopK,
    topKs := layer.mRuntimeTopKDevice,
    batchSlots := batchSlots,
    curandState := layer.mCurandStatesDevice,
    batchSize := batchSize,
    maxBatchSize := dom.batchSize,
    tokensPerStep := some tokensPerStepDevice,
    maxTokensPerStep := dom.maxDecodingTokens,
    maxSeqLen := dom.maxDecodingTokens,
    vocabSizePadded := dom.vocabSizePadded,
    returnAllTopK := false }

/-- The `params` of `sampleNewDraftTokens` (lines 412-424): one row per (request, head),
logits and outputs through pointer tables, one token position per row, all top-k candidates
returned. `maxSeqLen` is left at its default and not read in pointer mode. -/
def medusaHeadsSamplingParams (dom : DecoderDomain) (layer : LayerState) (batchSize : Nat)
    (tiledBatchSlots : Buffer Nat) (draftIdsPtrs : Buffer Int) : TopKSamplingKernelParams :=
  { logProbsPtrs := some layer.mMedusaSelectedLogitsPtrsDevice,
    outputIds := layer.mNewDraftTokensDevice,
    outputIdsPtrs := some draftIdsPtrs,
    maxTopK := layer.mRuntimeMaxTopKPerRequestPerMedusaHead,
    topKs := layer.mRuntimeTopKPerRequestPerMedusaHeadDevice,
    batchSlots := tiledBatchSlots,
    curandState := layer.mCurandStatesMedusaLogitsDevice,
    batchSize := batchSize * dom.maxDraftPathLen,
    maxBatchSize := dom.batchSize * dom.maxDraftPathLen,
    tokensPerStep := none,
    maxTokensPerStep := 1,
    maxSeqLen := 0,
    vocabSizePadded := dom.vocabSizePadded,
    returnAllTopK := true }

/-- `MedusaDecodingLayer<T>::samplePrimeHeadTokens` (lines 272-309). -/
def samplePrimeHeadTokens (K : ExternalKernels) (dom : DecoderDomain) (s : StepState)
    (inputs : MedusaDecodingInputs) : Outcome StepState :=
  match inputs.logits with
  | none => ⟨some .badOptionalAccess, s⟩
  | some batchSize =>
    match inputs.curTokensPerStep with
    | none => ⟨some .badOptionalAccess, s⟩
    | some tokensPerStepDevice =>
      match inputs.batchSlots with
      | none => ⟨some .batchSlotsMissing, s⟩
      | some batchSlots =>
        match s.outputs.sequenceLength with
        | none => ⟨some .sequenceLengthsMissing, s⟩
        | some _ =>
          let params := primeHeadSamplingParams dom s.layer batchSize batchSlots
            tokensPerStepDevice
          let sampled := invokeBatchTopKSampling K params
          ⟨none, { s with
            layer := { s.layer with
              mTargetTokensDevice := sampled.1,
              mCurandStatesDevice := sampled.2 },
            launched := s.launched ++ [.primeHeadSampling] }⟩

/-- The loop of lines 333-340 that gathers the logits handles of the active requests. -/
def gatherMedusaInputLogitsPtrs (batchSize maxDraftPathLen : Nat) (batchSlots : Buffer Nat)
    (medusaLogits : Nat → Nat → Nat) (ptrs : Buffer Nat) : Buffer Nat :=
  forRange batchSize (fun bi t =>
    forRange maxDraftPathLen (fun hi t =>
      t.write (batchSlots bi * maxDraftPathLen + hi) (medusaLogits (batchSlots bi) hi)) t) ptrs

/-- `MedusaDecodingLayer<T>::acceptDraftTokens` (lines 311-370). `bufferCast(*p)` of a null
tensor pointer is undefined in the source; the model lets it yield the null pointer, which
is what the checks of lines 344-351 test. The loop of lines 333-340 runs before those
checks; with null batch slots its read `batchSlots[bi]` is undefined and the model skips
the loop. -/
def acceptDraftTokens (K : ExternalKernels) (dom : DecoderDomain) (s : StepState)
    (inputs : MedusaDecodingInputs) : Outcome StepState :=
  match inputs.logits with
  | none => ⟨some .badOptionalAccess, s⟩
  | some batchSize =>
    match s.outputs.numNewTokens with
    | none => ⟨some .badOptionalAccess, s⟩
    | some numNewTokens =>
      match inputs.curTokensPerStep with
      | none => ⟨some .badOptionalAccess, s⟩
      | some curTokensPerStepDevice =>
        let gathered := match inputs.batchSlots with
          | some batchSlots => gatherMedusaInputLogitsPtrs batchSize dom.maxDraftPathLen
              batchSlots inputs.medusaLogits s.layer.mMedusaInputLogitsPtrs
          | none => s.layer.mMedusaInputLogitsPtrs
        let s1 : StepState := { s with
          layer := { s.layer with mMedusaInputLogitsPtrs := gathered } }
        match s.outputs.nextDraftTokens with
        | none => ⟨some .draftIdsMissing, s1⟩
        | some draftIds =>
          match inputs.batchSlots with
          | none => ⟨some .batchSlotsMissing, s1⟩
          | some batchSlots =>
            match s.outputs.sequenceLength with
            | none => ⟨some .sequenceLengthsMissing, s1⟩
            | some sequenceLengths =>
              match inputs.targetTokensPerStep with
              | none => ⟨some .targetTokensPerStepMissing, s1⟩
              | some targetTokensPerStepDevice =>
                let r := K.acceptDraftTokensByIdsWithPaths {
                  outputIds := s.outputs.outputIds,
                  draftIds := draftIds,
                  targetIds := s.layer.mTargetTokensDevice,
                  sequenceLengths := sequenceLengths,
                  numNewTokens := numNewTokens,
                  finishedFinal := s.outputs.finished,
                  batchSlots := batchSlots,
                  paths := inputs.paths,
                  endIds := inputs.endIds,
                  medusaLogits := gathered,
                  logitsPtrs := s.layer.mMedusaSelectedLogitsPtrsDevice,
                  curTokensPerStep := curTokensPerStepDevice,
                  targetTokensPerStep := targetTokensPerStepDevice,
                  bestPathIds := s.layer.mBestPathIdsDevice,
                  batchSize := batchSize,
                  vocabSize := dom.vocabSize,
                  maxBatchSize := dom.batchSize,
                  maxSeqLen := s.outputs.maxSeqLen,
                  maxDraftPathLen := dom.maxDraftPathLen,
                  maxDecodingTokens := dom.maxDecodingTokens }
                ⟨none, {
                  layer := { s1.layer with
                    mMedusaSelectedLogitsPtrsDevice := r.logitsPtrs,
                    mBestPathIdsDevice := r.bestPathIds },
                  outputs := { s.outputs with
                    outputIds := r.outputIds,
                    sequenceLength := some r.sequenceLengths,
                    numNewTokens := some r.numNewTokens,
                    finished := r.finishedFinal },
                  launched := s.launched ++ [.acceptDraftTokensByIdsWithPaths] }⟩

/-- The loop of lines 390-397:
`tiledBatchSlots[bi * maxDraftPathLen + hi] = maxDraftPathLen * batchSlots[bi] + hi`. -/
def tileBatchSlotsForward (batchSize maxDraftPathLen : Nat) (batchSlots : Buffer Nat)
    (tiledBatchSlots : Buffer Nat) : Buffer Nat :=
  forRange batchSize (fun bi t =>
    forRange maxDraftPathLen (fun hi t =>
      t.write (bi * maxDraftPathLen + hi) (maxDraftPathLen * batchSlots bi + hi)) t)
    tiledBatchSlots

/-- The loop of lines 401-410: the start of the candidates of (slot, head) in
`mNewDraftTokensDevice`, as element offset
`slot * maxDecodingTokens + mCummulativeTopK[slot * maxDraftPathLen + hi]`. -/
def prepareDraftIdsPtrs (batchSize maxDraftPathLen maxDecodingTokens : Nat)
    (batchSlots : Buffer Nat) (cummulativeTopK : Buffer Int) (draftIdsPtrs : Buffer Int) :
    Buffer Int :=
  forRange batchSize (fun bi t =>
    forRange maxDraftPathLen (fun hi t =>
      t.write (batchSlots bi * maxDraftPathLen + hi)
        (((batchSlots bi * maxDecodingTokens : Nat) : Int)
          + cummulativeTopK (batchSlots bi * maxDraftPathLen + hi))) t) draftIdsPtrs

/-- `MedusaDecodingLayer<T>::sampleNewDraftTokens` (lines 372-429). -/
def sampleNewDraftTokens (K : ExternalKernels) (dom : DecoderDomain) (s : StepState)
    (inputs : MedusaDecodingInputs) : Outcome StepState :=
  match inputs.logits with
  | none => ⟨some .badOptionalAccess, s⟩
  | some batchSize =>
    match inputs.batchSlots with
    | none => ⟨some .batchSlotsMissing, s⟩
    | some batchSlots =>
      match s.outputs.sequenceLength with
      | none => ⟨some .sequenceLengthsMissing, s⟩
      | some _ =>
        let maxDraftPathLen := dom.maxDraftPathLen
        let tiledBatchSlots := tileBatchSlotsForward batchSize maxDraftPathLen batchSlots
          s.layer.mTiledBatchSlotsForward
        let draftIdsPtrs := prepareDraftIdsPtrs batchSize maxDraftPathLen
          dom.maxDecodingTokens batchSlots s.layer.mCummulativeTopK s.layer.mDraftIdsPtrHost
        let params := medusaHeadsSamplingParams dom s.layer batchSize tiledBatchSlots
          draftIdsPtrs
        let sampled := invokeBatchTopKSampling K params
        ⟨none, { s with
          layer := { s.layer with
            mTiledBatchSlotsForward := tiledBatchSlots,
            mDraftIdsPtrHost := draftIdsPtrs,
            mNewDraftTokensDevice := sampled.1,
            mCurandStatesMedusaLogitsDevice := sampled.2 },
          launched := s.launched ++ [.medusaHeadsSampling] }⟩

/-- `MedusaDecodingLayer<T>::scatterNewDraftTokens` (lines 431-454). -/
def scatterNewDraftTokens (K : ExternalKernels) (dom : DecoderDomain) (s : StepState)
    (inputs : MedusaDecodingInputs) : Outcome StepState :=
  match inputs.logits with
  | none => ⟨some .badOptionalAccess, s⟩
  | some batchSize =>
    match inputs.batchSlots with
    | none => ⟨some .batchSlotsMissing, s⟩
    | some batchSlots =>
      match s.outputs.nextDraftTokens with
      | none => ⟨some .draftIdsMissing, s⟩
      | some draftIds =>
        match inputs.curTokensPerStep with
        | none => ⟨some .tokensPerStepMissing, s⟩
        | some tokensPerStepDevice =>
          match inputs.treeIds with
          | none => ⟨some .treeIdsMissing, s⟩
          | some treeIds =>
            let scattered := K.scatterMedusaDraftTokens {
              draftIds := draftIds,
              newDraftTokens := s.layer.mNewDraftTokensDevice,
              treeIds := treeIds,
              tokensPerStep := tokensPerStepDevice,
              batchSlots := batchSlots,
              maxDecodingTokens := dom.maxDecodingTokens,
              batchSize := batchSize }
            ⟨none, { s with
              outputs := { s.outputs with nextDraftTokens := some scattered },
              launched := s.launched ++ [.scatterMedusaDraftTokens] }⟩

/-- `MedusaDecodingLayer<T>::packAcceptedPaths` (lines 456-479); as in `acceptDraftTokens`,
`bufferCast(*p)` of a null tensor pointer yields the null pointer the checks test. -/
def packAcceptedPaths (K : ExternalKernels) (dom : DecoderDomain) (s : StepState)
    (inputs : MedusaDecodingInputs) : Outcome StepState :=
  match inputs.logits with
  | none => ⟨some .badOptionalAccess, s⟩
  | some batchSize =>
    match s.outputs.numNewTokens with
    | none => ⟨some .badOptionalAccess, s⟩
    | some numNewTokens =>
      match inputs.batchSlots with
      | none => ⟨some .batchSlotsMissing, s⟩
      | some batchSlots =>
        match s.outputs.numNewTokensCumSum with
        | none => ⟨some .numNewTokensCumSumMissing, s⟩
        | some numNewTokensCumSum =>
          match s.outputs.pathsOffsets with
          | none => ⟨some .pathsOffsetsMissing, s⟩
          | some pathsOffsets =>
            let packed := K.invokePackAcceptedPaths {
              numNewTokensCumSum := numNewTokensCumSum,
              pathsOffsets := pathsOffsets,
              numNewTokens := numNewTokens,
              bestPathIds := s.layer.mBestPathIdsDevice,
              paths := inputs.paths,
              batchSlots := batchSlots,
              batchSize := batchSize,
              maxDecodingTokens := dom.maxDecodingTokens,
              maxPathLen := dom.maxPathLen }
            ⟨none, { s with
              outputs := { s.outputs with
                numNewTokensCumSum := some packed.1,
                pathsOffsets := some packed.2 },
              launched := s.launched ++ [.packAcceptedPaths] }⟩

/-- Sequencing of two stages: the second runs on the state the first leaves, unless the
first threw. -/
def Outcome.andThen {σ : Type} (o : Outcome σ) (next : σ → Outcome σ) : Outcome σ :=
  match o.error with
  | some e => ⟨some e, o.state⟩
  | none => next o.state

/-- `MedusaDecodingLayer<T>::forwardAsync` (lines 244-264): the five stages in order. -/
def forwardAsync (K : ExternalKernels) (dom : DecoderDomain) (s : StepState)
    (inputs : MedusaDecodingInputs) : Outcome StepState :=
  (((samplePrimeHeadTokens K dom s inputs).andThen
    (fun s => acceptDraftTokens K dom s inputs)).andThen
    (fun s => sampleNewDraftTokens K dom s inputs)).andThen
    (fun s => scatterNewDraftTokens K dom s inputs) |>.andThen
    (fun s => packAcceptedPaths K dom s inputs)

/-- The seed vector is one `initCurandStates` accepts for a batch of `batchSize`. -/
def SeedsAccepted (randomSeed : Option (List Nat)) (batchSize : Nat) : Prop :=
  match randomSeed with
  | none => True
  | some seeds => seeds.length = 1 ∨ seeds.length = batchSize


instance (randomSeed : Option (List Nat)) (batchSize : Nat) :
    Decidable (SeedsAccepted randomSeed batchSize) := by
  unfold SeedsAccepted
  cases randomSeed <;> exact inferInstance

/-! ## Concrete inputs for the examples -/

/-- A decoder domain with 4 slots, 8 decoding tokens per step and 3 Medusa heads. -/
def exampleDomain : DecoderDomain :=
  { batchSize := 4, maxDecodingTokens := 8, maxDraftPathLen := 3, maxPathLen := 4,
    vocabSize := 100, vocabSizePadded := 100 }

/-- A layer whose buffers hold recognisable stale values: generator states seeded with 99
and 9 draws in, cumulative offsets -7, every other entry 0. -/
def exampleState : LayerState :=
  { mCurandStatesDevice := fun _ => ⟨99, 9⟩,
    mCurandStatesMedusaLogitsDevice := fun _ => ⟨99, 9⟩,
    mTiledBatchSlotsSetup := fun _ => 0,
    mTiledBatchSlotsForward := fun _ => 0,
    mRuntimeTopKDevice := fun _ => 0,
    mRuntimeTopKPerRequestPerMedusaHeadDevice := fun _ => 0,
    mCummulativeTopK := fun _ => -7,
    mRuntimeMaxTopK := 0,
    mRuntimeMaxTopKPerRequestPerMedusaHead := 0,
    mTargetTokensDevice := fun _ => 0,
    mNewDraftTokensDevice := fun _ => 0,
    mDraftIdsPtrHost := fun _ => 0,
    mMedusaInputLogitsPtrs := fun _ => 0,
    mMedusaSelectedLogitsPtrsDevice := fun _ => 0,
    mBestPathIdsDevice := fun _ => 0 }

/-- Two requests, in slots 2 and 0. -/
def exampleSlots : Buffer Nat := Buffer.ofList [2, 0] 0

/-- One shared seed, default primary top-k, and per-head top-k rows for two requests. -/
def exampleParams : MedusaSetupParams :=
  { randomSeed := some [5], runtimeTopK := none,
    runtimeHeadsTopK := some [[1, 2, 3], [4, 5, 6]] }

/-- The offsets of the row of slot `s` start at 0 and do not decrease. -/
def RowMonotone (D s : Nat) (table : Buffer Int) : Prop :=
  (0 < D → table (s * D) = 0) ∧ ∀ h, h + 1 < D → table (s * D + h) ≤ table (s * D + (h + 1))

/-- The value `m` is the maximum of the vector: one of its elements, and no element is above it. -/
def IsMaximumOf (m : Int) (xs : List Int) : Prop := m ∈ xs ∧ ∀ x, x ∈ xs → x ≤ m

/-- The value `m` is the maximum of the per-head top-k values of a call: the largest entry of
the supplied rows, or 1, the default top-k of every (request, head) pair, when the call
supplies no row. -/
def IsHeadsTopKMaximum (runtimeHeadsTopK : Option (List (List Int))) (m : Int) : Prop :=
  match runtimeHeadsTopK with
  | some rows =>
    if rows = [] then m = 1
    else (∃ r, r ∈ rows ∧ m ∈ r) ∧ ∀ r, r ∈ rows → ∀ x, x ∈ r → x ≤ m
  | none => m = 1

/-- The property of the running maxima along a sequence of `setup` calls, call by call: after
a call each running maximum is the larger of its value before the call and the maximum of
the top-k values of the call (the supplied primary vector or the default 1 per request; the
supplied per-head rows or the default 1 per pair), and neither is below its value before
the call. -/
def RunningMaxChain (dom : DecoderDomain) (st : LayerState) :
    List (Nat × Buffer Nat × MedusaSetupParams) → Prop
  | [] => True
  | (batchSize, batchSlots, p) :: rest =>
    (∃ m, IsMaximumOf m (p.runtimeTopK.getD (List.replicate batchSize 1))
      ∧ (setup dom st batchSize batchSlots p).state.mRuntimeMaxTopK = max st.mRuntimeMaxTopK m)
    ∧ (∃ m, IsHeadsTopKMaximum p.runtimeHeadsTopK m
      ∧ (setup dom st batchSize batchSlots p).state.mRuntimeMaxTopKPerRequestPerMedusaHead
        = max st.mRuntimeMaxTopKPerRequestPerMedusaHead m)
    ∧ st.mRuntimeMaxTopK ≤ (setup dom st batchSize batchSlots p).state.mRuntimeMaxTopK
    ∧ st.mRuntimeMaxTopKPerRequestPerMedusaHead
      ≤ (setup dom st batchSize batchSlots p).state.mRuntimeMaxTopKPerRequestPerMedusaHead
    ∧ RunningMaxChain dom (setup dom st batchSize batchSlots p).state rest

/-- The seed the seeding contract assigns to request `b`: the fixed default seed when no
seed vector is given, the single value of a vector of length 1, else entry `b`. -/
def seedOfRequest (randomSeed : Option (List Nat)) (b : Nat) : Nat :=
  match randomSeed with
  | none => DefaultDecodingParams.getSeed
  | some seeds => if seeds.length = 1 then seeds.headD 0 else seeds.getD b 0

/-- A decoder domain with 4 slots, 2 decoding tokens per step and a single Medusa head. -/
def singleHeadDomain : DecoderDomain :=
  { batchSize := 4, maxDecodingTokens := 2, maxDraftPathLen := 1, maxPathLen := 2,
    vocabSize := 100, vocabSizePadded := 100 }

/-- An instance of the external kernels for the examples. The sampler draws the token
`100 + 10 * tokenIdx + ki`; the verification, scatter and packing kernels of the instance
write back what they were given. -/
def exampleKernels : ExternalKernels :=
  { drawToken := fun _ _ _ tokenIdx ki => 100 + 10 * (tokenIdx : Int) + (ki : Int),
    acceptDraftTokensByIdsWithPaths := fun a =>
      { outputIds := a.outputIds, sequenceLengths := a.sequenceLengths,
        numNewTokens := a.numNewTokens, finishedFinal := a.finishedFinal,
        logitsPtrs := a.logitsPtrs, bestPathIds := a.bestPathIds },
    scatterMedusaDraftTokens := fun a => a.draftIds,
    invokePackAcceptedPaths := fun a => (a.numNewTokensCumSum, a.pathsOffsets) }

/-- The layer state of the forward examples: `exampleState` after the example `setup`
call. -/
def exampleLayer : LayerState :=
  (setup exampleDomain exampleState 2 exampleSlots exampleParams).state

/-- Output tensors for the forward examples, all present and zero; the finished flags are
given. -/
def exampleOutputs (finished : Buffer Nat) : SpeculativeDecodingOutputs :=
  { outputIds := some (fun _ => 0), maxSeqLen := 16, sequenceLength := some (fun _ => 0),
    numNewTokens := some (fun _ => 0), nextDraftTokens := some (fun _ => 0),
    finished := some finished, numNewTokensCumSum := some (fun _ => 0),
    pathsOffsets := some (fun _ => 0) }

/-- Inputs of a forward step for the two example requests, 2 tokens per step each; the
tree ids are given. -/
def exampleInputs (treeIds : Option (Buffer Int)) : MedusaDecodingInputs :=
  { logits := some 2, batchSlots := some exampleSlots, curTokensPerStep := some (fun _ => 2),
    targetTokensPerStep := some (fun _ => 2), endIds := some (fun _ => 99),
    paths := some (fun _ => 0), treeIds := treeIds, medusaLogits := fun slot hi => 10 * slot + hi }

/-- The candidate write range the sampling kernel of `sampleNewDraftTokens` gets for the row
of (request `b`, head `h`): with `batchSlot = tiledBatchSlots[b * maxDraftPathLen + h]`, it
starts at the element offset `outputIdsPtrs[batchSlot]` and holds `topKs[batchSlot]`
entries. The pair is (start, end), the end excluded. -/
def draftWriteRange (layer : LayerState) (maxDraftPathLen b h : Nat) : Int × Int :=
  (layer.mDraftIdsPtrHost (layer.mTiledBatchSlotsForward (b * maxDraftPathLen + h)),
    layer.mDraftIdsPtrHost (layer.mTiledBatchSlotsForward (b * maxDraftPathLen + h))
      + layer.mRuntimeTopKPerRequestPerMedusaHeadDevice
          (layer.mTiledBatchSlotsForward (b * maxDraftPathLen + h)))

/-! ## The path verification kernel -/

/-- The data the verification of one request reads: the path table, the draft tokens at the
tree nodes, the true tokens, the end token ids, the number of valid candidate paths per
slot, and the tree shape (`maxDecodingTokens` paths of up to `maxDraftPathLen + 1` nodes). -/
structure VerifyData where
  paths : Option (Buffer Int)
  draftIds : Buffer Int
  targetIds : Buffer Int
  endIds : Option (Buffer Int)
  curTokensPerStep : Buffer Int
  maxDecodingTokens : Nat
  maxDraftPathLen : Nat

/-- The verification data among the arguments of the kernel. -/
def AcceptArgs.verifyData (a : AcceptArgs) : VerifyData :=
  { paths := a.paths, draftIds := a.draftIds, targetIds := a.targetIds, endIds := a.endIds,
    curTokensPerStep := a.curTokensPerStep, maxDecodingTokens := a.maxDecodingTokens,
    maxDraftPathLen := a.maxDraftPathLen }

/-- Modelled from the spec: the path table of the data model, "for each of up to `W`
candidate paths, an ordered sequence of up to `D+1` tree-node indices (terminated by a
sentinel for shorter paths)", one table per slot, row-major; the sentinel is -1. A null
path table has no node. -/
def VerifyData.pathNode (v : VerifyData) (slot pathIdx i : Nat) : Int :=
  match v.paths with
  | some paths =>
    paths ((slot * v.maxDecodingTokens + pathIdx) * (v.maxDraftPathLen + 1) + i)
  | none => -1

/-- Modelled from the spec: "the draft token stored at that tree node"; the request owns the
slice of the draft tokens that starts at `slot * maxDecodingTokens`. -/
def VerifyData.draftToken (v : VerifyData) (slot : Nat) (node : Int) : Int :=
  v.draftIds (slot * v.maxDecodingTokens + node.toNat)

/-- Modelled from the spec: the true token of position `i` along a path, entry `i` of the
row of the request in the target tokens ("The true token for position 0 is always the
primary-sampled token"; the scenario of the testable properties gives the true tokens per
position). -/
def VerifyData.trueToken (v : VerifyData) (slot i : Nat) : Int :=
  v.targetIds (slot * v.maxDecodingTokens + i)

/-- Whether the token is the end token of the slot; never with null end ids. -/
def VerifyData.isEndToken (v : VerifyData) (slot : Nat) (token : Int) : Bool :=
  match v.endIds with
  | some endIds => decide (token = endIds slot)
  | none => false

/-- Modelled from the spec: the walk along one path, step 2 of the verification algorithm:
"comparison stops at the first mismatch, at the end-of-sequence token (forces acceptance to
stop there), or at the path's own length, whichever comes first". `fuel` positions are left,
`i` have matched; the result is the number of matched positions, the end token included. -/
def VerifyData.walkPath (v : VerifyData) (slot pathIdx : Nat) : Nat → Nat → Nat
  | 0, i => i
  | fuel + 1, i =>
    if v.pathNode slot pathIdx i = -1 then i
    else if v.draftToken slot (v.pathNode slot pathIdx i) ≠ v.trueToken slot i then i
    else if v.isEndToken slot (v.trueToken slot i) then i + 1
    else v.walkPath slot pathIdx fuel (i + 1)

/-- Modelled from the spec: the accepted length of a path, the length of its longest matching
prefix, and 1 when the first comparison already fails ("a path whose first comparison already
mismatches still contributes length 1 (the primary token is always committed)"). -/
def VerifyData.acceptedLength (v : VerifyData) (slot pathIdx : Nat) : Nat :=
  max 1 (v.walkPath slot pathIdx (v.maxDraftPathLen + 1) 0)

/-- Modelled from the spec: step 3 of the verification algorithm, the scan over the candidate
paths in path-id order, of which "only the first `tokensPerStep` are valid this step". The
state is (accepted length, path id) of the best path so far; a later path replaces it only
with a strictly larger accepted length. -/
def VerifyData.selectBestPath (v : VerifyData) (slot : Nat) : Nat × Nat :=
  forRange v.maxDecodingTokens (fun pathIdx best =>
    if (pathIdx : Int) < v.curTokensPerStep slot ∧ best.1 < v.acceptedLength slot pathIdx then
      (v.acceptedLength slot pathIdx, pathIdx)
    else best) (0, 0)

/-- The declarative reading of "longest prefix on which the draft token equals the true
token, stopped at the end token": `n` positions of the path, all of them nodes whose draft
token equals the true token, no end token before the last of them, and no way on: the path
table row is used up, or the last true token is the end token, or position `n` is the
sentinel or a mismatch. -/
def VerifyData.IsAcceptedPrefix (v : VerifyData) (slot pathIdx n : Nat) : Prop :=
  n ≤ v.maxDraftPathLen + 1
  ∧ (∀ i, i < n → v.pathNode slot pathIdx i ≠ -1
      ∧ v.draftToken slot (v.pathNode slot pathIdx i) = v.trueToken slot i)
  ∧ (∀ i, i + 1 < n → v.isEndToken slot (v.trueToken slot i) = false)
  ∧ (n = v.maxDraftPathLen + 1
    ∨ (0 < n ∧ v.isEndToken slot (v.trueToken slot (n - 1)) = true)
    ∨ v.pathNode slot pathIdx n = -1
    ∨ v.draftToken slot (v.pathNode slot pathIdx n) ≠ v.trueToken slot n)

/-- The finished flag of a request that produced the end token (any non-zero value marks a
finished request). -/
def finishedEos : Nat := 1

/-- Modelled from the spec: the kernel `acceptDraftTokensByIdsWithPaths`, which is not part
of the sources, after the verification algorithm of the spec, "per request independently":
the best path is selected (step 3), then committed (step 4): the accepted length's worth of
true tokens is appended to the output sequence of the request, the sequence length advances
by that count, `numNewTokens` and the best path id are recorded, and the logits of each head
at the last accepted node are selected for the draft sampling; the request is marked finished
when the end token is among the appended tokens (step 5). -/
def acceptDraftTokensByIdsWithPaths (a : AcceptArgs) : AcceptResult :=
  { outputIds := a.outputIds.map (fun outputIds =>
      forRange a.batchSize (fun bi out =>
        forRange (a.verifyData.selectBestPath (a.batchSlots bi)).1 (fun i out =>
          out.writeAt (((a.batchSlots bi * a.maxSeqLen : Nat) : Int)
              + a.sequenceLengths (a.batchSlots bi) + (i : Int))
            (a.verifyData.trueToken (a.batchSlots bi) i)) out) outputIds),
    sequenceLengths := forRange a.batchSize (fun bi t =>
      t.write (a.batchSlots bi)
        (wrapInt32 (a.sequenceLengths (a.batchSlots bi)
          + ((a.verifyData.selectBestPath (a.batchSlots bi)).1 : Int)))) a.sequenceLengths,
    numNewTokens := forRange a.batchSize (fun bi t =>
      t.write (a.batchSlots bi) ((a.verifyData.selectBestPath (a.batchSlots bi)).1 : Int))
      a.numNewTokens,
    finishedFinal := a.finishedFinal.map (fun finished =>
      forRange a.batchSize (fun bi t =>
        if (List.range (a.verifyData.selectBestPath (a.batchSlots bi)).1).any (fun i =>
            a.verifyData.isEndToken (a.batchSlots bi)
              (a.verifyData.trueToken (a.batchSlots bi) i)) then
          t.write (a.batchSlots bi) finishedEos
        else t) finished),
    logitsPtrs := forRange a.batchSize (fun bi t =>
      forRange a.maxDraftPathLen (fun hi t =>
        t.write (bi * a.maxDraftPathLen + hi)
          (a.medusaLogits (a.batchSlots bi * a.maxDraftPathLen + hi)
            + (a.verifyData.pathNode (a.batchSlots bi)
                (a.verifyData.selectBestPath (a.batchSlots bi)).2
                ((a.verifyData.selectBestPath (a.batchSlots bi)).1 - 1)).toNat
              * a.vocabSize)) t) a.logitsPtrs,
    bestPathIds := forRange a.batchSize (fun bi t =>
      t.write (a.batchSlots bi) ((a.verifyData.selectBestPath (a.batchSlots bi)).2 : Int))
      a.bestPathIds }

/-- The external kernels with the verification kernel modelled from the spec; the other
kernels are those of `exampleKernels`. -/
def specKernels : ExternalKernels :=
  { exampleKernels with acceptDraftTokensByIdsWithPaths := acceptDraftTokensByIdsWithPaths }

/-- The domain of the scenario of the testable properties: one slot, `D = 2`, `W = 3`. -/
def scenarioDomain : DecoderDomain :=
  { batchSize := 1, maxDecodingTokens := 3, maxDraftPathLen := 2, maxPathLen := 3,
    vocabSize := 100, vocabSizePadded := 100 }

/-- The inputs of the scenario: one request in slot 0 with 3 valid paths, the path table
`[[0, 1, 2], [0, 1, 3], [0, 4]]` (the short path ended by the sentinel) and end token 99. -/
def scenarioInputs : MedusaDecodingInputs :=
  { logits := some 1, batchSlots := some (Buffer.ofList [0] 0),
    curTokensPerStep := some (fun _ => 3), targetTokensPerStep := some (fun _ => 3),
    endIds := some (fun _ => 99),
    paths := some (Buffer.ofList [0, 1, 2, 0, 1, 3, 0, 4, -1] (-1)),
    treeIds := some (fun _ => 0), medusaLogits := fun slot hi => 10 * slot + hi }

/-- The state of the scenario before verification: true tokens `[5, 7, 2]` in the target
tokens, draft tokens `[5, 7, 9, 7, 2]` at the tree nodes, an empty output sequence. -/
def scenarioState : StepState :=
  { layer := { exampleState with mTargetTokensDevice := Buffer.ofList [5, 7, 2] 0 },
    outputs :=
      { outputIds := some (fun _ => 0), maxSeqLen := 16, sequenceLength := some (fun _ => 0),
        numNewTokens := some (fun _ => 0),
        nextDraftTokens := some (Buffer.ofList [5, 7, 9, 7, 2] 0),
        finished := some (fun _ => 0), numNewTokensCumSum := some (fun _ => 0),
        pathsOffsets := some (fun _ => 0) },
    launched := [] }

/-- The verification data `acceptDraftTokens` hands to the kernel (lines 363-367): the path
table and end ids of the inputs, the draft tokens `nextDraftTokens` of the outputs, the
target tokens of the layer, the current tokens per step and the tree shape of the domain. -/
def verificationData (dom : DecoderDomain) (s : StepState) (inputs : MedusaDecodingInputs)
    (draftIds : Buffer Int) (tokensPerStep : Buffer Int) : VerifyData :=
  { paths := inputs.paths, draftIds := draftIds, targetIds := s.layer.mTargetTokensDevice,
    endIds := inputs.endIds, curTokensPerStep := tokensPerStep,
    maxDecodingTokens := dom.maxDecodingTokens, maxDraftPathLen := dom.maxDraftPathLen }

/-! ## Auxiliary lemmas -/

open Finset

theorem wrapInt32_of_inInt32 (x : Int) (h : InInt32 x) : wrapInt32 x = x := by
  unfold InInt32 at h
  unfold wrapInt32
  omega

theorem wrapInt32_add_wrapInt32 (a b : Int) : wrapInt32 (wrapInt32 a + b) = wrapInt32 (a + b) := by
  unfold wrapInt32
  omega

theorem forRange_succ {σ : Type} (n : Nat) (body : Nat → σ → σ) (init : σ) :
    forRange (n + 1) body init = body n (forRange n body init) := rfl

theorem forRange_buffer_frame {α : Type} (n : Nat) (body : Nat → Buffer α → Buffer α)
    (init : Buffer α) (idx : Nat)
    (hframe : ∀ i, i < n → ∀ buf : Buffer α, body i buf idx = buf idx) :
    forRange n body init idx = init idx := by
  induction n with
  | zero => rfl
  | succ k ih =>
    rw [forRange_succ, hframe k (Nat.lt_succ_self k)]
    exact ih (fun i hi buf => hframe i (Nat.lt_succ_of_lt hi) buf)

theorem forRange_buffer_get {α : Type} (n : Nat) (body : Nat → Buffer α → Buffer α)
    (init : Buffer α) (idx : Nat) (v : α) (j : Nat) (hj : j < n)
    (hval : ∀ buf : Buffer α, body j buf idx = v)
    (hframe : ∀ i, i < n → i ≠ j → ∀ buf : Buffer α, body i buf idx = buf idx) :
    forRange n body init idx = v := by
  induction n with
  | zero => omega
  | succ k ih =>
    rw [forRange_succ]
    by_cases hjk : j = k
    · subst hjk
      exact hval _
    · rw [hframe k (Nat.lt_succ_self k) (fun h => hjk h.symm)]
      exact ih (by omega) (fun i hi hne buf => hframe i (Nat.lt_succ_of_lt hi) hne buf)

theorem flat_index_inj (D a h c k : Nat) (hh : h < D) (hk : k < D)
    (heq : a * D + h = c * D + k) : a = c ∧ h = k := by
  have h1 : (a * D + h) / D = a := by
    rw [Nat.add_comm, Nat.add_mul_div_right _ _ (by omega : 0 < D), Nat.div_eq_of_lt hh]; simp
  have h2 : (c * D + k) / D = c := by
    rw [Nat.add_comm, Nat.add_mul_div_right _ _ (by omega : 0 < D), Nat.div_eq_of_lt hk]; simp
  have hac : a = c := by rw [← h1, ← h2, heq]
  subst hac
  exact ⟨rfl, by omega⟩

theorem Buffer.write_same {α : Type} (buf : Buffer α) (i : Nat) (v : α) : buf.write i v i = v := by
  simp [Buffer.write]

theorem Buffer.write_other {α : Type} (buf : Buffer α) (i j : Nat) (v : α) (h : j ≠ i) :
    buf.write i v j = buf j := by
  simp [Buffer.write, h]

/-- The running sum the inner loop holds after `n` heads of request `bi`. -/
theorem cumulativeTopKRow_spec (D : Nat) (flat : List Int) (bi slot : Nat) (table : Buffer Int)
    (n : Nat) :
    let r := forRange n (fun hi (s : Buffer Int × Int) =>
      (s.1.write (slot * D + hi) s.2, wrapInt32 (s.2 + flat.getD (bi * D + hi) 0))) (table, 0)
    r.2 = wrapInt32 (∑ k in range n, flat.getD (bi * D + k) 0)
    ∧ (∀ h, h < n → r.1 (slot * D + h) = wrapInt32 (∑ k in range h, flat.getD (bi * D + k) 0))
    ∧ (∀ j, (∀ h, h < n → j ≠ slot * D + h) → r.1 j = table j) := by
  induction n with
  | zero =>
    refine ⟨by simp [forRange, wrapInt32], fun h hh => absurd hh (Nat.not_lt_zero h), fun j _ => rfl⟩
  | succ m ih =>
    obtain ⟨ih1, ih2, ih3⟩ := ih
    simp only [forRange_succ]
    refine ⟨?_, ?_, ?_⟩
    · rw [ih1, wrapInt32_add_wrapInt32, Finset.sum_range_succ]
    · intro h hh
      by_cases hm : h = m
      · subst hm
        rw [Buffer.write_same, ih1]
      · rw [Buffer.write_other _ _ _ _ (by omega)]
        exact ih2 h (by omega)
    · intro j hj
      rw [Buffer.write_other _ _ _ _ (hj m (Nat.lt_succ_self m))]
      exact ih3 j (fun h hh => hj h (Nat.lt_succ_of_lt hh))

theorem cumulativeTopKLoop_get (batchSize D : Nat) (batchSlots : Buffer Nat) (flat : List Int)
    (table : Buffer Int)
    (hdistinct : ∀ i j, i < batchSize → j < batchSize → batchSlots i = batchSlots j → i = j)
    (b h : Nat) (hb : b < batchSize) (hh : h < D) :
    cumulativeTopKLoop batchSize D batchSlots flat table (batchSlots b * D + h)
      = wrapInt32 (∑ k in range h, flat.getD (b * D + k) 0) := by
  unfold cumulativeTopKLoop
  apply forRange_buffer_get batchSize _ table _ _ b hb
  · intro buf
    exact (cumulativeTopKRow_spec D flat b (batchSlots b) buf D).2.1 h hh
  · intro i hi hne buf
    apply (cumulativeTopKRow_spec D flat i (batchSlots i) buf D).2.2
    intro k hk heq
    exact hne (hdistinct i b hi hb (flat_index_inj D _ _ _ _ hh hk heq).1.symm)


theorem forRange_list_length {α : Type} (n : Nat) (body : Nat → List α → List α) (init : List α)
    (hlen : ∀ i (v : List α), (body i v).length = v.length) :
    (forRange n body init).length = init.length := by
  induction n with
  | zero => rfl
  | succ k ih => rw [forRange_succ, hlen, ih]

theorem tiledRandomSeed_length (randomSeed : List Nat) (batchSize D : Nat) :
    (tiledRandomSeed randomSeed batchSize D).length = batchSize * D := by
  unfold tiledRandomSeed
  simp only
  split
  · rw [forRange_list_length]
    · simp
    · intro i v
      rw [forRange_list_length]
      intro j w
      simp
  · simp

theorem initCurandStates_tiled_ok (randomSeed : List Nat) (batchSize D : Nat)
    (slots : Buffer Nat) (states : Buffer CurandState) :
    ∃ r, initCurandStates (some (tiledRandomSeed randomSeed batchSize D)) (batchSize * D)
      slots states = .ok r := by
  unfold initCurandStates
  simp only [tiledRandomSeed_length]
  split
  · exact ⟨_, rfl⟩
  · simp

theorem initCurandStates_ok_iff (randomSeed : Option (List Nat)) (batchSize : Nat)
    (slots : Buffer Nat) (states : Buffer CurandState) :
    (∃ r, initCurandStates randomSeed batchSize slots states = .ok r)
      ↔ SeedsAccepted randomSeed batchSize := by
  unfold initCurandStates SeedsAccepted
  cases randomSeed with
  | none => simp
  | some seeds =>
    simp only
    by_cases h1 : seeds.length = 1
    · simp [h1]
    · by_cases h2 : seeds.length = batchSize
      · rw [if_neg h1, if_pos h2]
        exact ⟨fun _ => Or.inr h2, fun _ => ⟨_, rfl⟩⟩
      · simp [h1, h2]

theorem setup_error_none_iff (dom : DecoderDomain) (st : LayerState) (batchSize : Nat)
    (batchSlots : Buffer Nat) (p : MedusaSetupParams) :
    (setup dom st batchSize batchSlots p).error = none ↔
      SeedsAccepted p.randomSeed batchSize
      ∧ (p.runtimeTopK.getD (List.replicate batchSize 1)).length = batchSize
      ∧ (runtimeHeadsTopKFlatten p.runtimeHeadsTopK (batchSize * dom.maxDraftPathLen)).length
          = batchSize * dom.maxDraftPathLen := by
  rw [← initCurandStates_ok_iff p.randomSeed batchSize batchSlots st.mCurandStatesDevice]
  unfold setup
  cases h1 : initCurandStates p.randomSeed batchSize batchSlots st.mCurandStatesDevice with
  | error e => simp
  | ok states =>
    simp only
    obtain ⟨r, hr⟩ := initCurandStates_tiled_ok
      (p.randomSeed.getD (List.replicate batchSize 0)) batchSize dom.maxDraftPathLen
      (tileBatchSlotsForSeeds batchSize dom.maxDraftPathLen batchSlots st.mTiledBatchSlotsSetup)
      st.mCurandStatesMedusaLogitsDevice
    rw [hr]
    simp only [prepareRuntimeTopK]
    by_cases h2 : (p.runtimeTopK.getD (List.replicate batchSize 1)).length = batchSize
    · simp only [h2, if_true]
      by_cases h3 : (runtimeHeadsTopKFlatten p.runtimeHeadsTopK
          (batchSize * dom.maxDraftPathLen)).length = batchSize * dom.maxDraftPathLen
      · simp [h3]
      · by_cases h4 : (runtimeHeadsTopKFlatten p.runtimeHeadsTopK
            (batchSize * dom.maxDraftPathLen)).length < batchSize * dom.maxDraftPathLen
        · simp [h3, h4]
        · simp [h3, h4]
    · simp [h2]


theorem setup_of_seeds_rejected (dom : DecoderDomain) (st : LayerState) (batchSize : Nat)
    (batchSlots : Buffer Nat) (p : MedusaSetupParams) (e : LayerError)
    (h : initCurandStates p.randomSeed batchSize batchSlots st.mCurandStatesDevice = .error e) :
    setup dom st batchSize batchSlots p = ⟨some e, st⟩ := by
  unfold setup
  rw [h]

theorem setup_of_primary_rejected (dom : DecoderDomain) (st : LayerState) (batchSize : Nat)
    (batchSlots : Buffer Nat) (p : MedusaSetupParams) (states headStates : Buffer CurandState)
    (h1 : initCurandStates p.randomSeed batchSize batchSlots st.mCurandStatesDevice = .ok states)
    (h2 : initCurandStates
      (some (tiledRandomSeed (p.randomSeed.getD (List.replicate batchSize 0)) batchSize
        dom.maxDraftPathLen))
      (batchSize * dom.maxDraftPathLen)
      (tileBatchSlotsForSeeds batchSize dom.maxDraftPathLen batchSlots st.mTiledBatchSlotsSetup)
      st.mCurandStatesMedusaLogitsDevice = .ok headStates)
    (h3 : (p.runtimeTopK.getD (List.replicate batchSize 1)).length ≠ batchSize) :
    setup dom st batchSize batchSlots p =
      ⟨some (.runtimeTopKSizeMismatch (p.runtimeTopK.getD (List.replicate batchSize 1)).length
          batchSize),
        { st with
          mCurandStatesDevice := states,
          mTiledBatchSlotsSetup := tileBatchSlotsForSeeds batchSize dom.maxDraftPathLen
            batchSlots st.mTiledBatchSlotsSetup,
          mCurandStatesMedusaLogitsDevice := headStates }⟩ := by
  unfold setup
  rw [h1]
  simp only
  rw [h2]
  simp only [prepareRuntimeTopK, if_neg h3]

theorem setup_of_primary_accepted (dom : DecoderDomain) (st : LayerState) (batchSize : Nat)
    (batchSlots : Buffer Nat) (p : MedusaSetupParams) (states headStates : Buffer CurandState)
    (h1 : initCurandStates p.randomSeed batchSize batchSlots st.mCurandStatesDevice = .ok states)
    (h2 : initCurandStates
      (some (tiledRandomSeed (p.randomSeed.getD (List.replicate batchSize 0)) batchSize
        dom.maxDraftPathLen))
      (batchSize * dom.maxDraftPathLen)
      (tileBatchSlotsForSeeds batchSize dom.maxDraftPathLen batchSlots st.mTiledBatchSlotsSetup)
      st.mCurandStatesMedusaLogitsDevice = .ok headStates)
    (h3 : (p.runtimeTopK.getD (List.replicate batchSize 1)).length = batchSize)
    (h0 : ¬ (runtimeHeadsTopKFlatten p.runtimeHeadsTopK
      (batchSize * dom.maxDraftPathLen)).length < batchSize * dom.maxDraftPathLen) :
    let flat := runtimeHeadsTopKFlatten p.runtimeHeadsTopK (batchSize * dom.maxDraftPathLen)
    let tiled := tileBatchSlotsForTopK batchSize dom.maxDraftPathLen batchSlots
      (tileBatchSlotsForSeeds batchSize dom.maxDraftPathLen batchSlots st.mTiledBatchSlotsSetup)
    let st6 : LayerState := { st with
      mCurandStatesDevice := states,
      mTiledBatchSlotsSetup := tiled,
      mCurandStatesMedusaLogitsDevice := headStates,
      mRuntimeTopKDevice := invokeScatterDecodingParams
        (p.runtimeTopK.getD (List.replicate batchSize 1)) st.mRuntimeTopKDevice batchSlots
        batchSize,
      mRuntimeMaxTopK := max st.mRuntimeMaxTopK
        (maxElement (p.runtimeTopK.getD (List.replicate batchSize 1))),
      mCummulativeTopK := cumulativeTopKLoop batchSize dom.maxDraftPathLen batchSlots flat
        st.mCummulativeTopK }
    setup dom st batchSize batchSlots p =
      if flat.length = batchSize * dom.maxDraftPathLen then
        ⟨none, { st6 with
          mRuntimeTopKPerRequestPerMedusaHeadDevice := invokeScatterDecodingParams flat
            st.mRuntimeTopKPerRequestPerMedusaHeadDevice tiled (batchSize * dom.maxDraftPathLen),
          mRuntimeMaxTopKPerRequestPerMedusaHead :=
            max st.mRuntimeMaxTopKPerRequestPerMedusaHead (maxElement flat) }⟩
      else ⟨some (.runtimeTopKSizeMismatch flat.length (batchSize * dom.maxDraftPathLen)), st6⟩ := by
  intro flat tiled st6
  unfold setup
  rw [h1]
  simp only
  rw [h2]
  simp only [prepareRuntimeTopK, if_pos h3, if_neg h0]
  by_cases h4 : flat.length = batchSize * dom.maxDraftPathLen
  · rw [if_pos h4]
    simp only [flat] at h4
    simp only [h4, if_true]
  · rw [if_neg h4]
    simp only [flat] at h4
    simp only [h4, if_false]

theorem setup_of_heads_too_short (dom : DecoderDomain) (st : LayerState) (batchSize : Nat)
    (batchSlots : Buffer Nat) (p : MedusaSetupParams) (states headStates : Buffer CurandState)
    (h1 : initCurandStates p.randomSeed batchSize batchSlots st.mCurandStatesDevice = .ok states)
    (h2 : initCurandStates
      (some (tiledRandomSeed (p.randomSeed.getD (List.replicate batchSize 0)) batchSize
        dom.maxDraftPathLen))
      (batchSize * dom.maxDraftPathLen)
      (tileBatchSlotsForSeeds batchSize dom.maxDraftPathLen batchSlots st.mTiledBatchSlotsSetup)
      st.mCurandStatesMedusaLogitsDevice = .ok headStates)
    (h3 : (p.runtimeTopK.getD (List.replicate batchSize 1)).length = batchSize)
    (h0 : (runtimeHeadsTopKFlatten p.runtimeHeadsTopK
      (batchSize * dom.maxDraftPathLen)).length < batchSize * dom.maxDraftPathLen) :
    (setup dom st batchSize batchSlots p).error = some .readPastEndOfVector := by
  unfold setup
  rw [h1]
  simp only
  rw [h2]
  simp only [prepareRuntimeTopK, if_pos h3, if_pos h0]

theorem foldl_append_eq_flatten (rows : List (List Int)) (acc : List Int) :
    rows.foldl (fun acc sub => acc ++ sub) acc = acc ++ rows.flatten := by
  induction rows generalizing acc with
  | nil => simp
  | cons r rest ih => simp [ih]

theorem runtimeHeadsTopKFlatten_supplied (rows : List (List Int)) (n : Nat)
    (hne : rows ≠ []) : runtimeHeadsTopKFlatten (some rows) n = rows.flatten := by
  unfold runtimeHeadsTopKFlatten
  have : rows.length ≠ 0 := by
    intro h
    exact hne (List.length_eq_zero.mp h)
  simp only [this, ne_eq, not_false_eq_true, if_true]
  rw [foldl_append_eq_flatten]
  simp

theorem setup_ok_cumulative (dom : DecoderDomain) (st : LayerState) (batchSize : Nat)
    (batchSlots : Buffer Nat) (p : MedusaSetupParams)
    (hok : (setup dom st batchSize batchSlots p).error = none) :
    (setup dom st batchSize batchSlots p).state.mCummulativeTopK
      = cumulativeTopKLoop batchSize dom.maxDraftPathLen batchSlots
          (runtimeHeadsTopKFlatten p.runtimeHeadsTopK (batchSize * dom.maxDraftPathLen))
          st.mCummulativeTopK := by
  have hv := (setup_error_none_iff dom st batchSize batchSlots p).mp hok
  obtain ⟨states, h1⟩ := (initCurandStates_ok_iff p.randomSeed batchSize batchSlots
    st.mCurandStatesDevice).mpr hv.1
  obtain ⟨headStates, h2⟩ := initCurandStates_tiled_ok
    (p.randomSeed.getD (List.replicate batchSize 0)) batchSize dom.maxDraftPathLen
    (tileBatchSlotsForSeeds batchSize dom.maxDraftPathLen batchSlots st.mTiledBatchSlotsSetup)
    st.mCurandStatesMedusaLogitsDevice
  have h := setup_of_primary_accepted dom st batchSize batchSlots p states headStates h1 h2 hv.2.1
    (by have := hv.2.2; omega)
  simp only at h
  rw [h, if_pos hv.2.2]

/-- The offsets in terms of the flattened vector: after a successful `setup` with pairwise
distinct slots, the offset stored for (slot of request `b`, head `h`) is the sum of the
entries `b * maxDraftPathLen .. b * maxDraftPathLen + h - 1` of the flattened per-head
vector, when that sum is representable in `SizeType32`. -/
theorem setup_cumulative_offset_eq_running_sum (dom : DecoderDomain) (st : LayerState)
    (batchSize : Nat) (batchSlots : Buffer Nat) (p : MedusaSetupParams) (rows : List (List Int))
    (hsupplied : p.runtimeHeadsTopK = some rows)
    (hlen : rows.flatten.length = batchSize * dom.maxDraftPathLen)
    (hdistinct : ∀ i j, i < batchSize → j < batchSize → batchSlots i = batchSlots j → i = j)
    (hok : (setup dom st batchSize batchSlots p).error = none)
    (b h : Nat) (hb : b < batchSize) (hh : h < dom.maxDraftPathLen)
    (hfits : InInt32 (∑ k in range h, rows.flatten.getD (b * dom.maxDraftPathLen + k) 0)) :
    (setup dom st batchSize batchSlots p).state.mCummulativeTopK
        (batchSlots b * dom.maxDraftPathLen + h)
      = ∑ k in range h, rows.flatten.getD (b * dom.maxDraftPathLen + k) 0 := by
  have hne : rows ≠ [] := by
    intro hnil
    subst hnil
    simp only [List.flatten_nil, List.length_nil] at hlen
    have hpos : 0 < batchSize * dom.maxDraftPathLen := Nat.mul_pos (by omega) (by omega)
    omega
  rw [setup_ok_cumulative dom st batchSize batchSlots p hok, hsupplied,
    runtimeHeadsTopKFlatten_supplied rows _ hne,
    cumulativeTopKLoop_get batchSize dom.maxDraftPathLen batchSlots rows.flatten st.mCummulativeTopK
      hdistinct b h hb hh]
  exact wrapInt32_of_inInt32 _ hfits

theorem exampleSlots_distinct :
    ∀ i j, i < 2 → j < 2 → exampleSlots i = exampleSlots j → i = j := by
  intro i j hi hj
  interval_cases i <;> interval_cases j <;> simp [exampleSlots, Buffer.ofList]

theorem flatten_length_of_rectangular (rows : List (List Int)) (D : Nat)
    (hrect : ∀ r, r ∈ rows → r.length = D) : rows.flatten.length = rows.length * D := by
  induction rows with
  | nil => simp
  | cons r rest ih =>
    have hr : r.length = D := hrect r (List.mem_cons_self r rest)
    have hrest := ih (fun r2 hr2 => hrect r2 (List.mem_cons_of_mem r hr2))
    simp only [List.flatten_cons, List.length_append, List.length_cons, hr, hrest]
    rw [Nat.add_mul]
    omega

theorem flatten_getD_of_rectangular (rows : List (List Int)) (D : Nat)
    (hrect : ∀ r, r ∈ rows → r.length = D) (b k : Nat) (hb : b < rows.length) (hk : k < D) :
    rows.flatten.getD (b * D + k) 0 = (rows.getD b []).getD k 0 := by
  induction rows generalizing b with
  | nil => simp at hb
  | cons r rest ih =>
    have hr : r.length = D := hrect r (List.mem_cons_self r rest)
    cases b with
    | zero =>
      simp only [List.flatten_cons, Nat.zero_mul, Nat.zero_add, List.getD_cons_zero]
      exact List.getD_append r rest.flatten 0 k (by omega)
    | succ b2 =>
      have hb2 : b2 < rest.length := by
        simp only [List.length_cons] at hb
        omega
      have hidx : (b2 + 1) * D + k - r.length = b2 * D + k := by
        rw [hr, Nat.add_mul]
        omega
      simp only [List.flatten_cons, List.getD_cons_succ]
      rw [List.getD_append_right r rest.flatten 0 _ (by rw [hr, Nat.add_mul]; omega), hidx]
      exact ih (fun r2 hr2 => hrect r2 (List.mem_cons_of_mem r hr2)) b2 hb2

/-- C1 (amended): after a successful `setup` with pairwise distinct slots and a supplied
per-head top-k vector of flattened length `batchSize * maxDraftPathLen` whose rows all have
`maxDraftPathLen` entries, the offset stored for (slot of request `b`, head `h`) is the sum
of `perHeadTopK[b][0], ..., perHeadTopK[b][h-1]` (so 0 for head 0), for every request
`b < batchSize` and head `h < maxDraftPathLen`, the sum being representable in `SizeType32`,
the type of the accumulator. -/
theorem setup_cumulative_offset_eq_row_sum (dom : DecoderDomain) (st : LayerState)
    (batchSize : Nat) (batchSlots : Buffer Nat) (p : MedusaSetupParams) (rows : List (List Int))
    (hsupplied : p.runtimeHeadsTopK = some rows)
    (hlen : rows.flatten.length = batchSize * dom.maxDraftPathLen)
    (hrect : ∀ r, r ∈ rows → r.length = dom.maxDraftPathLen)
    (hdistinct : ∀ i j, i < batchSize → j < batchSize → batchSlots i = batchSlots j → i = j)
    (hok : (setup dom st batchSize batchSlots p).error = none)
    (b h : Nat) (hb : b < batchSize) (hh : h < dom.maxDraftPathLen)
    (hfits : InInt32 (∑ k in range h, (rows.getD b []).getD k 0)) :
    (setup dom st batchSize batchSlots p).state.mCummulativeTopK
        (batchSlots b * dom.maxDraftPathLen + h)
      = ∑ k in range h, (rows.getD b []).getD k 0 := by
  have hrows : rows.length = batchSize := by
    have h1 := flatten_length_of_rectangular rows dom.maxDraftPathLen hrect
    rw [hlen] at h1
    exact (Nat.eq_of_mul_eq_mul_right (by omega : 0 < dom.maxDraftPathLen) h1).symm
  have hsum : ∑ k in range h, rows.flatten.getD (b * dom.maxDraftPathLen + k) 0
      = ∑ k in range h, (rows.getD b []).getD k 0 := by
    apply Finset.sum_congr rfl
    intro k hk
    simp only [Finset.mem_range] at hk
    exact flatten_getD_of_rectangular rows dom.maxDraftPathLen hrect b k (by omega) (by omega)
  rw [← hsum] at hfits ⊢
  exact setup_cumulative_offset_eq_running_sum dom st batchSize batchSlots p rows hsupplied hlen
    hdistinct hok b h hb hh hfits

/-- C1 as stated fails on ragged rows: the per-head vector `[[9, 2], [3, 4, 5, 6]]` has
flattened length 6 for 2 requests with 3 heads and `setup` succeeds; the offset stored for
(slot of request 1, head 1) is 4, entry 3 of the flattened vector, while
`perHeadTopK[1][0]` is 3. -/
theorem setup_cumulative_offset_eq_row_sum_counterexample :
    ([[9, 2], [3, 4, 5, 6]] : List (List Int)).flatten.length = 2 * exampleDomain.maxDraftPathLen
    ∧ (setup exampleDomain exampleState 2 exampleSlots
        ⟨none, none, some [[9, 2], [3, 4, 5, 6]]⟩).error = none
    ∧ (setup exampleDomain exampleState 2 exampleSlots
        ⟨none, none, some [[9, 2], [3, 4, 5, 6]]⟩).state.mCummulativeTopK
          (exampleSlots 1 * exampleDomain.maxDraftPathLen + 1) = 4
    ∧ (([[9, 2], [3, 4, 5, 6]] : List (List Int)).getD 1 []).getD 0 0 = 3
    ∧ (setup exampleDomain exampleState 2 exampleSlots
        ⟨none, none, some [[9, 2], [3, 4, 5, 6]]⟩).state.mCummulativeTopK
          (exampleSlots 1 * exampleDomain.maxDraftPathLen + 1)
      ≠ (([[9, 2], [3, 4, 5, 6]] : List (List Int)).getD 1 []).getD 0 0 := by
  decide

/-- The amended C1 at the example call: request 1 sits in slot 0 and its heads 0 and 1 have
top-k 4 and 5, so the offset stored for (slot 0, head 2) is 9. -/
theorem setup_cumulative_offset_eq_row_sum_witness :
    (setup exampleDomain exampleState 2 exampleSlots exampleParams).state.mCummulativeTopK 2
      = 9 := by
  have h := setup_cumulative_offset_eq_row_sum exampleDomain exampleState 2 exampleSlots
    exampleParams [[1, 2, 3], [4, 5, 6]] rfl (by decide)
    (by
      intro r hr
      simp only [List.mem_cons, List.mem_singleton, List.not_mem_nil, or_false] at hr
      rcases hr with hr | hr <;> subst hr <;> rfl)
    exampleSlots_distinct (by decide)
    1 2 (by decide) (by decide) (by simp [InInt32, Finset.sum_range_succ])
  simpa [Finset.sum_range_succ, exampleDomain, exampleSlots, Buffer.ofList] using h

theorem forRange_invariant_from {σ : Type} (P : σ → Prop) (n : Nat) (body : Nat → σ → σ)
    (init : σ) (j : Nat) (hj : j < n)
    (hestablish : ∀ s, P (body j s))
    (hpreserve : ∀ i, i < n → ∀ s, P s → P (body i s)) :
    P (forRange n body init) := by
  induction n with
  | zero => omega
  | succ k ih =>
    rw [forRange_succ]
    by_cases hjk : j = k
    · subst hjk
      exact hestablish _
    · exact hpreserve k (Nat.lt_succ_self k) _
        (ih (by omega) (fun i hi s hs => hpreserve i (Nat.lt_succ_of_lt hi) s hs))

theorem cumulativeTopKRow_monotone (D : Nat) (flat : List Int) (bi : Nat) (table : Buffer Int)
    (hnonneg : ∀ h, h < D → 0 ≤ flat.getD (bi * D + h) 0)
    (hfits : ∀ h, h < D → InInt32 (∑ k in range h, flat.getD (bi * D + k) 0))
    (slot : Nat) :
    RowMonotone D slot (cumulativeTopKRow D flat bi slot table).1 := by
  have hspec := (cumulativeTopKRow_spec D flat bi slot table D).2.1
  have hval : ∀ h, h < D → (cumulativeTopKRow D flat bi slot table).1 (slot * D + h)
      = ∑ k in range h, flat.getD (bi * D + k) 0 := by
    intro h hh
    have := hspec h hh
    rw [wrapInt32_of_inInt32 _ (hfits h hh)] at this
    exact this
  constructor
  · intro hD
    have := hval 0 hD
    simpa using this
  · intro h hh
    rw [hval h (by omega), hval (h + 1) hh, Finset.sum_range_succ]
    have := hnonneg h (by omega)
    omega

theorem cumulativeTopKRow_other_row (D : Nat) (flat : List Int) (bi slot s : Nat)
    (table : Buffer Int) (hne : slot ≠ s) (h : Nat) (hh : h < D) :
    (cumulativeTopKRow D flat bi slot table).1 (s * D + h) = table (s * D + h) := by
  apply (cumulativeTopKRow_spec D flat bi slot table D).2.2
  intro k hk heq
  exact hne (flat_index_inj D _ _ _ _ hh hk heq).1.symm

/-- C2 (amended): after a successful `setup`, for any batch slots, if the per-head top-k
values in use (supplied or defaulted) are non-negative and the running sums of every request
are representable in `SizeType32`, then the stored offsets of the slot of each active
request are 0 at head 0 and non-decreasing in the head index. -/
theorem setup_cumulative_offsets_monotone (dom : DecoderDomain) (st : LayerState)
    (batchSize : Nat) (batchSlots : Buffer Nat) (p : MedusaSetupParams)
    (hok : (setup dom st batchSize batchSlots p).error = none)
    (hnonneg : ∀ b h, b < batchSize → h < dom.maxDraftPathLen →
      0 ≤ (runtimeHeadsTopKFlatten p.runtimeHeadsTopK (batchSize * dom.maxDraftPathLen)).getD
        (b * dom.maxDraftPathLen + h) 0)
    (hfits : ∀ b h, b < batchSize → h < dom.maxDraftPathLen →
      InInt32 (∑ k in range h,
        (runtimeHeadsTopKFlatten p.runtimeHeadsTopK (batchSize * dom.maxDraftPathLen)).getD
          (b * dom.maxDraftPathLen + k) 0))
    (b : Nat) (hb : b < batchSize) :
    (0 < dom.maxDraftPathLen →
      (setup dom st batchSize batchSlots p).state.mCummulativeTopK
        (batchSlots b * dom.maxDraftPathLen) = 0)
    ∧ ∀ h, h + 1 < dom.maxDraftPathLen →
      (setup dom st batchSize batchSlots p).state.mCummulativeTopK
          (batchSlots b * dom.maxDraftPathLen + h)
        ≤ (setup dom st batchSize batchSlots p).state.mCummulativeTopK
          (batchSlots b * dom.maxDraftPathLen + (h + 1)) := by
  rw [setup_ok_cumulative dom st batchSize batchSlots p hok]
  unfold cumulativeTopKLoop
  apply forRange_invariant_from (RowMonotone dom.maxDraftPathLen (batchSlots b)) batchSize _ _ b hb
  · intro t
    exact cumulativeTopKRow_monotone _ _ b t (fun h hh => hnonneg b h hb hh)
      (fun h hh => hfits b h hb hh) _
  · intro i hi t ht
    by_cases hs : batchSlots i = batchSlots b
    · rw [hs]
      exact cumulativeTopKRow_monotone _ _ i t (fun h hh => hnonneg i h hi hh)
        (fun h hh => hfits i h hi hh) _
    · constructor
      · intro hD
        have := cumulativeTopKRow_other_row dom.maxDraftPathLen
          (runtimeHeadsTopKFlatten p.runtimeHeadsTopK (batchSize * dom.maxDraftPathLen))
          i (batchSlots i) (batchSlots b) t hs 0 hD
        simp only [Nat.add_zero] at this
        rw [this]
        exact ht.1 hD
      · intro h hh
        rw [cumulativeTopKRow_other_row _ _ _ _ _ _ hs h (by omega),
          cumulativeTopKRow_other_row _ _ _ _ _ _ hs (h + 1) hh]
        exact ht.2 h hh

/-- C2 as stated fails: `setup` accepts the per-head top-k row `[1, -1, 2]` and stores the
offsets 0, 1, 0 for the request; the offset of head 2 is below that of head 1. -/
theorem setup_cumulative_offsets_monotone_counterexample :
    (setup exampleDomain exampleState 1 (Buffer.ofList [0] 0)
        ⟨none, none, some [[1, -1, 2]]⟩).error = none
    ∧ ¬ ((setup exampleDomain exampleState 1 (Buffer.ofList [0] 0)
          ⟨none, none, some [[1, -1, 2]]⟩).state.mCummulativeTopK (0 * 3 + 1)
        ≤ (setup exampleDomain exampleState 1 (Buffer.ofList [0] 0)
          ⟨none, none, some [[1, -1, 2]]⟩).state.mCummulativeTopK (0 * 3 + (1 + 1))) := by
  decide

/-- The amended C2 at the example call: the offsets of heads 1 and 2 of the request in
slot 0 are 4 and 9. -/
theorem setup_cumulative_offsets_monotone_witness :
    (setup exampleDomain exampleState 2 exampleSlots exampleParams).state.mCummulativeTopK 1
      ≤ (setup exampleDomain exampleState 2 exampleSlots exampleParams).state.mCummulativeTopK 2 := by
  have h := (setup_cumulative_offsets_monotone exampleDomain exampleState 2 exampleSlots
    exampleParams (by decide)
    (by
      intro b h hb hh
      have hh3 : h < 3 := hh
      interval_cases b <;> interval_cases h <;> decide)
    (by
      intro b h hb hh
      have hh3 : h < 3 := hh
      interval_cases b <;> interval_cases h <;>
        simp [InInt32, Finset.sum_range_succ, exampleDomain, exampleParams,
          runtimeHeadsTopKFlatten])
    1 (by decide)).2 1 (by decide)
  simpa [exampleDomain, exampleSlots, Buffer.ofList] using h

theorem foldl_max_ge_init (rest : List Int) (x : Int) : x ≤ rest.foldl max x := by
  induction rest generalizing x with
  | nil => exact le_refl x
  | cons y r ih => exact le_trans (le_max_left x y) (ih (max x y))

theorem foldl_max_ge_mem (rest : List Int) (x y : Int) (hy : y ∈ rest) :
    y ≤ rest.foldl max x := by
  induction rest generalizing x with
  | nil => cases hy
  | cons z r ih =>
    rcases List.mem_cons.mp hy with h | h
    · subst h
      exact le_trans (le_max_right x y) (foldl_max_ge_init r (max x y))
    · exact ih (max x z) h

theorem foldl_max_mem (rest : List Int) (x : Int) :
    rest.foldl max x = x ∨ rest.foldl max x ∈ rest := by
  induction rest generalizing x with
  | nil => exact Or.inl rfl
  | cons z r ih =>
    rcases ih (max x z) with h | h
    · rcases max_choice x z with hm | hm
      · left
        simp only [List.foldl_cons]
        rw [h, hm]
      · right
        simp only [List.foldl_cons]
        rw [h, hm]
        exact List.mem_cons_self z r
    · right
      exact List.mem_cons_of_mem z h

theorem maxElement_isMaximumOf (xs : List Int) (hne : xs ≠ []) :
    IsMaximumOf (maxElement xs) xs := by
  cases xs with
  | nil => exact absurd rfl hne
  | cons x rest =>
    unfold IsMaximumOf
    have hdef : maxElement (x :: rest) = rest.foldl max x := rfl
    rw [hdef]
    constructor
    · rcases foldl_max_mem rest x with h | h
      · rw [h]
        exact List.mem_cons_self x rest
      · exact List.mem_cons_of_mem x h
    · intro y hy
      rcases List.mem_cons.mp hy with h | h
      · subst h
        exact foldl_max_ge_init rest y
      · exact foldl_max_ge_mem rest x y h

theorem setup_ok_maxima (dom : DecoderDomain) (st : LayerState) (batchSize : Nat)
    (batchSlots : Buffer Nat) (p : MedusaSetupParams)
    (hok : (setup dom st batchSize batchSlots p).error = none) :
    (setup dom st batchSize batchSlots p).state.mRuntimeMaxTopK
      = max st.mRuntimeMaxTopK (maxElement (p.runtimeTopK.getD (List.replicate batchSize 1)))
    ∧ (setup dom st batchSize batchSlots p).state.mRuntimeMaxTopKPerRequestPerMedusaHead
      = max st.mRuntimeMaxTopKPerRequestPerMedusaHead
          (maxElement
            (runtimeHeadsTopKFlatten p.runtimeHeadsTopK (batchSize * dom.maxDraftPathLen))) := by
  have hv := (setup_error_none_iff dom st batchSize batchSlots p).mp hok
  obtain ⟨states, h1⟩ := (initCurandStates_ok_iff p.randomSeed batchSize batchSlots
    st.mCurandStatesDevice).mpr hv.1
  obtain ⟨headStates, h2⟩ := initCurandStates_tiled_ok
    (p.randomSeed.getD (List.replicate batchSize 0)) batchSize dom.maxDraftPathLen
    (tileBatchSlotsForSeeds batchSize dom.maxDraftPathLen batchSlots st.mTiledBatchSlotsSetup)
    st.mCurandStatesMedusaLogitsDevice
  have h := setup_of_primary_accepted dom st batchSize batchSlots p states headStates h1 h2 hv.2.1
    (by have := hv.2.2; omega)
  simp only at h
  rw [h, if_pos hv.2.2]
  exact ⟨rfl, rfl⟩

theorem setupSequence_cons_ok (dom : DecoderDomain) (st : LayerState) (batchSize : Nat)
    (batchSlots : Buffer Nat) (p : MedusaSetupParams)
    (rest : List (Nat × Buffer Nat × MedusaSetupParams))
    (hok : (setupSequence dom st ((batchSize, batchSlots, p) :: rest)).error = none) :
    (setup dom st batchSize batchSlots p).error = none
    ∧ (setupSequence dom (setup dom st batchSize batchSlots p).state rest).error = none := by
  unfold setupSequence at hok
  cases h : setup dom st batchSize batchSlots p with
  | mk err st1 =>
    rw [h] at hok
    cases err with
    | none => exact ⟨rfl, hok⟩
    | some e => simp at hok

theorem headsTopKMaximum_of_flatten (runtimeHeadsTopK : Option (List (List Int))) (n : Nat)
    (m : Int) (hm : IsMaximumOf m (runtimeHeadsTopKFlatten runtimeHeadsTopK n)) :
    IsHeadsTopKMaximum runtimeHeadsTopK m := by
  unfold IsHeadsTopKMaximum
  cases runtimeHeadsTopK with
  | none =>
    have hmem : m ∈ List.replicate n (1 : Int) := hm.1
    exact List.eq_of_mem_replicate hmem
  | some rows =>
    by_cases hrows : rows = []
    · subst hrows
      have hmem : m ∈ List.replicate n (1 : Int) := hm.1
      simp only [if_true]
      exact List.eq_of_mem_replicate hmem
    · rw [runtimeHeadsTopKFlatten_supplied rows n hrows] at hm
      simp only [hrows, if_false]
      obtain ⟨hmem, hle⟩ := hm
      obtain ⟨r, hr, hmr⟩ := List.mem_flatten.mp hmem
      exact ⟨⟨r, hr, hmr⟩, fun r2 hr2 x hx => hle x (List.mem_flatten.mpr ⟨r2, hr2, hx⟩)⟩

/-- C3: along every finite sequence of successful `setup` calls on one layer (each with at
least one request, the layer with at least one head, so that the top-k vectors are not
empty), after each call both running maxima, `mRuntimeMaxTopK` and
`mRuntimeMaxTopKPerRequestPerMedusaHead`, equal the larger of their value before the call and
the maximum of the top-k values the call supplied or defaulted (for the per-head maximum:
the largest entry of the supplied rows, or the default 1 when no row is supplied), and so
are not below their value before the call. -/
theorem setupSequence_running_maxima (dom : DecoderDomain) (st : LayerState)
    (calls : List (Nat × Buffer Nat × MedusaSetupParams))
    (hheads : 0 < dom.maxDraftPathLen)
    (hbatch : ∀ c, c ∈ calls → 0 < c.1)
    (hok : (setupSequence dom st calls).error = none) :
    RunningMaxChain dom st calls := by
  induction calls generalizing st with
  | nil => exact True.intro
  | cons c rest ih =>
    obtain ⟨batchSize, batchSlots, p⟩ := c
    obtain ⟨hcall, hrest⟩ := setupSequence_cons_ok dom st batchSize batchSlots p rest hok
    have hv := (setup_error_none_iff dom st batchSize batchSlots p).mp hcall
    have hpos : 0 < batchSize := hbatch (batchSize, batchSlots, p) (List.mem_cons_self _ _)
    obtain ⟨hm1, hm2⟩ := setup_ok_maxima dom st batchSize batchSlots p hcall
    have hne1 : p.runtimeTopK.getD (List.replicate batchSize 1) ≠ [] := by
      intro hnil
      rw [hnil] at hv
      simp only [List.length_nil] at hv
      omega
    have hne2 : runtimeHeadsTopKFlatten p.runtimeHeadsTopK (batchSize * dom.maxDraftPathLen)
        ≠ [] := by
      intro hnil
      rw [hnil] at hv
      simp only [List.length_nil] at hv
      have : 0 < batchSize * dom.maxDraftPathLen := Nat.mul_pos hpos hheads
      omega
    refine ⟨⟨_, maxElement_isMaximumOf _ hne1, hm1⟩,
      ⟨_, headsTopKMaximum_of_flatten _ _ _ (maxElement_isMaximumOf _ hne2), hm2⟩,
      ?_, ?_, ?_⟩
    · rw [hm1]
      exact le_max_left _ _
    · rw [hm2]
      exact le_max_left _ _
    · exact ih _ (fun c hc => hbatch c (List.mem_cons_of_mem _ hc)) hrest

/-- C3 on two calls in a row, the second supplying smaller top-k values than the first. -/
theorem setupSequence_running_maxima_witness :
    RunningMaxChain exampleDomain exampleState
      [(2, exampleSlots, exampleParams), (1, exampleSlots, ⟨none, some [3], none⟩)] :=
  setupSequence_running_maxima exampleDomain exampleState
    [(2, exampleSlots, exampleParams), (1, exampleSlots, ⟨none, some [3], none⟩)]
    (by decide) (by
      intro c hc
      simp only [List.mem_cons, List.mem_singleton, List.not_mem_nil, or_false] at hc
      rcases hc with h | h <;> subst h <;> decide) (by decide)

theorem initCurandStates_rejected (randomSeed : Option (List Nat)) (batchSize : Nat)
    (batchSlots : Buffer Nat) (statesDevice : Buffer CurandState)
    (h : ¬ SeedsAccepted randomSeed batchSize) :
    initCurandStates randomSeed batchSize batchSlots statesDevice
      = .error .randomSeedSizeMismatch := by
  unfold SeedsAccepted at h
  unfold initCurandStates
  cases randomSeed with
  | none => exact absurd True.intro h
  | some seeds =>
    simp only at h ⊢
    have h1 : ¬ seeds.length = 1 := fun h1 => h (Or.inl h1)
    have h2 : ¬ seeds.length = batchSize := fun h2 => h (Or.inr h2)
    rw [if_neg h1, if_neg h2]

/-- C4 (amended): `setup` throws a size-mismatch error whenever a primary top-k vector is
supplied whose length differs from `batchSize`, or a per-head top-k vector with at least one
row is supplied whose flattened length is larger than `batchSize * maxDraftPathLen`. (A
per-head vector with rows and a smaller flattened length is not covered: with seeds and
primary vector accepted, the offset loop reads it past its end before the size check.) -/
theorem setup_fails_on_wrong_topK_length (dom : DecoderDomain) (st : LayerState)
    (batchSize : Nat) (batchSlots : Buffer Nat) (p : MedusaSetupParams)
    (h : (∃ v, p.runtimeTopK = some v ∧ v.length ≠ batchSize)
      ∨ (∃ rows, p.runtimeHeadsTopK = some rows ∧ rows ≠ []
          ∧ batchSize * dom.maxDraftPathLen < rows.flatten.length)) :
    (setup dom st batchSize batchSlots p).error = some .randomSeedSizeMismatch
    ∨ ∃ size expected,
      (setup dom st batchSize batchSlots p).error
        = some (.runtimeTopKSizeMismatch size expected) := by
  by_cases hseeds : SeedsAccepted p.randomSeed batchSize
  · obtain ⟨states, h1⟩ := (initCurandStates_ok_iff p.randomSeed batchSize batchSlots
      st.mCurandStatesDevice).mpr hseeds
    obtain ⟨headStates, h2⟩ := initCurandStates_tiled_ok
      (p.randomSeed.getD (List.replicate batchSize 0)) batchSize dom.maxDraftPathLen
      (tileBatchSlotsForSeeds batchSize dom.maxDraftPathLen batchSlots st.mTiledBatchSlotsSetup)
      st.mCurandStatesMedusaLogitsDevice
    right
    by_cases h3 : (p.runtimeTopK.getD (List.replicate batchSize 1)).length = batchSize
    · rcases h with ⟨v, hv1, hv2⟩ | ⟨rows, hr1, hr2, hr3⟩
      · rw [hv1] at h3
        exact absurd h3 hv2
      · have hflat : runtimeHeadsTopKFlatten p.runtimeHeadsTopK
            (batchSize * dom.maxDraftPathLen) = rows.flatten := by
          rw [hr1, runtimeHeadsTopKFlatten_supplied rows _ hr2]
        have hsetup := setup_of_primary_accepted dom st batchSize batchSlots p states headStates
          h1 h2 h3 (by rw [hflat]; omega)
        simp only at hsetup
        rw [hsetup, if_neg (by rw [hflat]; omega)]
        exact ⟨_, _, rfl⟩
    · rw [setup_of_primary_rejected dom st batchSize batchSlots p states headStates h1 h2 h3]
      exact ⟨_, _, rfl⟩
  · left
    rw [setup_of_seeds_rejected dom st batchSize batchSlots p _
      (initCurandStates_rejected p.randomSeed batchSize batchSlots st.mCurandStatesDevice hseeds)]

/-- C4 as stated fails: a supplied per-head top-k vector without rows has flattened length
0, which differs from `batchSize * maxDraftPathLen = 3`, yet `setup` succeeds: the guard
`runtimeHeadsTopK->size()` of line 202 sends it to the default top-k. -/
theorem setup_fails_on_wrong_topK_length_counterexample :
    ([] : List (List Int)).flatten.length ≠ 1 * exampleDomain.maxDraftPathLen
    ∧ (setup exampleDomain exampleState 1 (Buffer.ofList [0] 0)
        ⟨none, none, some []⟩).error = none := by
  decide

/-- The amended C4 at a per-head top-k vector of flattened length 7 for 2 requests with 3
heads: `setup` throws the size mismatch of 7 against 6. -/
theorem setup_fails_on_wrong_topK_length_witness :
    (setup exampleDomain exampleState 2 exampleSlots
      ⟨none, none, some [[1, 2, 3], [4, 5, 6, 7]]⟩).error
      = some (.runtimeTopKSizeMismatch 7 6) := by
  have h := setup_fails_on_wrong_topK_length exampleDomain exampleState 2 exampleSlots
    ⟨none, none, some [[1, 2, 3], [4, 5, 6, 7]]⟩
    (Or.inr ⟨[[1, 2, 3], [4, 5, 6, 7]], rfl, by decide, by decide⟩)
  rcases h with h | ⟨size, expected, h⟩
  · exact absurd h (by decide)
  · decide

/-- C5 (amended): a `setup` call whose seeds are accepted and that throws on the length of a
top-k vector keeps what the steps before the failing check have written. When the primary
top-k vector has the wrong length, the offset table, both running maxima and both stored
top-k buffers are those before the call, and the per-request and the per-head generator
states are already re-seeded. When the primary vector is accepted and the flattened per-head
vector is longer than `batchSize * maxDraftPathLen`, the per-head running maximum and the
stored per-head top-k are those before the call, and the per-request and per-head generator
states, the stored primary top-k and the primary running maximum are those of the call. -/
theorem setup_failure_keeps_earlier_steps (dom : DecoderDomain) (st : LayerState)
    (batchSize : Nat) (batchSlots : Buffer Nat) (p : MedusaSetupParams)
    (hseeds : SeedsAccepted p.randomSeed batchSize) :
    ((p.runtimeTopK.getD (List.replicate batchSize 1)).length ≠ batchSize →
      (setup dom st batchSize batchSlots p).error
        = some (.runtimeTopKSizeMismatch
            (p.runtimeTopK.getD (List.replicate batchSize 1)).length batchSize)
      ∧ (setup dom st batchSize batchSlots p).state.mCummulativeTopK = st.mCummulativeTopK
      ∧ (setup dom st batchSize batchSlots p).state.mRuntimeMaxTopK = st.mRuntimeMaxTopK
      ∧ (setup dom st batchSize batchSlots p).state.mRuntimeMaxTopKPerRequestPerMedusaHead
        = st.mRuntimeMaxTopKPerRequestPerMedusaHead
      ∧ (setup dom st batchSize batchSlots p).state.mRuntimeTopKDevice = st.mRuntimeTopKDevice
      ∧ (setup dom st batchSize batchSlots p).state.mRuntimeTopKPerRequestPerMedusaHeadDevice
        = st.mRuntimeTopKPerRequestPerMedusaHeadDevice
      ∧ initCurandStates p.randomSeed batchSize batchSlots st.mCurandStatesDevice
        = .ok (setup dom st batchSize batchSlots p).state.mCurandStatesDevice
      ∧ initCurandStates
          (some (tiledRandomSeed (p.randomSeed.getD (List.replicate batchSize 0)) batchSize
            dom.maxDraftPathLen))
          (batchSize * dom.maxDraftPathLen)
          (tileBatchSlotsForSeeds batchSize dom.maxDraftPathLen batchSlots
            st.mTiledBatchSlotsSetup)
          st.mCurandStatesMedusaLogitsDevice
        = .ok (setup dom st batchSize batchSlots p).state.mCurandStatesMedusaLogitsDevice)
    ∧ ((p.runtimeTopK.getD (List.replicate batchSize 1)).length = batchSize →
      batchSize * dom.maxDraftPathLen
        < (runtimeHeadsTopKFlatten p.runtimeHeadsTopK
            (batchSize * dom.maxDraftPathLen)).length →
      (setup dom st batchSize batchSlots p).error
        = some (.runtimeTopKSizeMismatch
            (runtimeHeadsTopKFlatten p.runtimeHeadsTopK
              (batchSize * dom.maxDraftPathLen)).length
            (batchSize * dom.maxDraftPathLen))
      ∧ (setup dom st batchSize batchSlots p).state.mRuntimeMaxTopKPerRequestPerMedusaHead
        = st.mRuntimeMaxTopKPerRequestPerMedusaHead
      ∧ (setup dom st batchSize batchSlots p).state.mRuntimeTopKPerRequestPerMedusaHeadDevice
        = st.mRuntimeTopKPerRequestPerMedusaHeadDevice
      ∧ (setup dom st batchSize batchSlots p).state.mRuntimeMaxTopK
        = max st.mRuntimeMaxTopK
            (maxElement (p.runtimeTopK.getD (List.replicate batchSize 1)))
      ∧ (setup dom st batchSize batchSlots p).state.mRuntimeTopKDevice
        = invokeScatterDecodingParams (p.runtimeTopK.getD (List.replicate batchSize 1))
            st.mRuntimeTopKDevice batchSlots batchSize
      ∧ initCurandStates p.randomSeed batchSize batchSlots st.mCurandStatesDevice
        = .ok (setup dom st batchSize batchSlots p).state.mCurandStatesDevice
      ∧ initCurandStates
          (some (tiledRandomSeed (p.randomSeed.getD (List.replicate batchSize 0)) batchSize
            dom.maxDraftPathLen))
          (batchSize * dom.maxDraftPathLen)
          (tileBatchSlotsForSeeds batchSize dom.maxDraftPathLen batchSlots
            st.mTiledBatchSlotsSetup)
          st.mCurandStatesMedusaLogitsDevice
        = .ok (setup dom st batchSize batchSlots p).state.mCurandStatesMedusaLogitsDevice) := by
  obtain ⟨states, h1⟩ := (initCurandStates_ok_iff p.randomSeed batchSize batchSlots
    st.mCurandStatesDevice).mpr hseeds
  obtain ⟨headStates, h2⟩ := initCurandStates_tiled_ok
    (p.randomSeed.getD (List.replicate batchSize 0)) batchSize dom.maxDraftPathLen
    (tileBatchSlotsForSeeds batchSize dom.maxDraftPathLen batchSlots st.mTiledBatchSlotsSetup)
    st.mCurandStatesMedusaLogitsDevice
  constructor
  · intro h3
    rw [setup_of_primary_rejected dom st batchSize batchSlots p states headStates h1 h2 h3]
    exact ⟨rfl, rfl, rfl, rfl, rfl, rfl, h1, h2⟩
  · intro h3 h4
    have h := setup_of_primary_accepted dom st batchSize batchSlots p states headStates h1 h2 h3
      (by omega)
    simp only at h
    rw [h, if_neg (by omega)]
    exact ⟨rfl, rfl, rfl, rfl, rfl, h1, h2⟩

/-- C5 as stated fails: the call with seed `[5]` and a primary top-k vector of length 1 for
2 requests throws the size mismatch, and the generator state of slot 2 is the re-seeded one,
not the one before the call. -/
theorem setup_failure_keeps_earlier_steps_counterexample :
    (setup exampleDomain exampleState 2 exampleSlots ⟨some [5], some [3], none⟩).error
      = some (.runtimeTopKSizeMismatch 1 2)
    ∧ (setup exampleDomain exampleState 2 exampleSlots
        ⟨some [5], some [3], none⟩).state.mCurandStatesDevice 2
      ≠ exampleState.mCurandStatesDevice 2 := by
  decide

/-- The amended C5 at the same call: the error is the size mismatch and the offset table is
the one before the call. -/
theorem setup_failure_keeps_earlier_steps_witness :
    (setup exampleDomain exampleState 2 exampleSlots ⟨some [5], some [3], none⟩).error
      = some (.runtimeTopKSizeMismatch 1 2)
    ∧ (setup exampleDomain exampleState 2 exampleSlots
        ⟨some [5], some [3], none⟩).state.mCummulativeTopK = exampleState.mCummulativeTopK :=
  have h := (setup_failure_keeps_earlier_steps exampleDomain exampleState 2 exampleSlots
    ⟨some [5], some [3], none⟩ (by decide)).1 (by decide)
  ⟨h.1, h.2.1⟩

theorem forRange_write_get {α : Type} (n : Nat) (slots : Buffer Nat) (val : Nat → α)
    (init : Buffer α)
    (hdistinct : ∀ i j, i < n → j < n → slots i = slots j → i = j)
    (b : Nat) (hb : b < n) :
    forRange n (fun bi s => s.write (slots bi) (val bi)) init (slots b) = val b := by
  apply forRange_buffer_get n _ init _ _ b hb
  · intro buf
    exact Buffer.write_same _ _ _
  · intro i hi hne buf
    exact Buffer.write_other _ _ _ _ (fun heq => hne (hdistinct i b hi hb heq.symm))

/-- C6: for every `batchSize` and every optional seed vector, the seeding step
`initCurandStates` succeeds exactly when the vector is absent, has length 1 or has length
`batchSize`; in every other case it fails with the size-mismatch error; and when it
succeeds on pairwise distinct slots, the state of the slot of request `b` is the one
initialised with the fixed default seed (vector absent), with the single value (length 1),
or with `seeds[b]` (length `batchSize`). -/
theorem initCurandStates_accepts_iff (randomSeed : Option (List Nat)) (batchSize : Nat)
    (batchSlots : Buffer Nat) (statesDevice : Buffer CurandState) :
    ((∃ r, initCurandStates randomSeed batchSize batchSlots statesDevice = .ok r)
      ↔ (randomSeed = none ∨ ∃ seeds, randomSeed = some seeds
          ∧ (seeds.length = 1 ∨ seeds.length = batchSize)))
    ∧ ((∀ r, initCurandStates randomSeed batchSize batchSlots statesDevice ≠ .ok r) →
      initCurandStates randomSeed batchSize batchSlots statesDevice
        = .error .randomSeedSizeMismatch)
    ∧ (∀ r, initCurandStates randomSeed batchSize batchSlots statesDevice = .ok r →
      (∀ i j, i < batchSize → j < batchSize → batchSlots i = batchSlots j → i = j) →
      ∀ b, b < batchSize → r (batchSlots b) = curandInit (seedOfRequest randomSeed b)) := by
  refine ⟨?_, ?_, ?_⟩
  · rw [initCurandStates_ok_iff]
    unfold SeedsAccepted
    cases randomSeed with
    | none => simp
    | some seeds => simp
  · intro hno
    unfold initCurandStates at hno ⊢
    cases randomSeed with
    | none => exact absurd rfl (hno _)
    | some seeds =>
      simp only at hno ⊢
      by_cases h1 : seeds.length = 1
      · rw [if_pos h1] at hno
        exact absurd rfl (hno _)
      · rw [if_neg h1] at hno ⊢
        by_cases h2 : seeds.length = batchSize
        · rw [if_pos h2] at hno
          exact absurd rfl (hno _)
        · rw [if_neg h2]
  · intro r hr hdistinct b hb
    unfold initCurandStates at hr
    cases randomSeed with
    | none =>
      simp only [Except.ok.injEq] at hr
      rw [← hr]
      unfold invokeCurandInitialize seedOfRequest
      exact forRange_write_get batchSize batchSlots _ statesDevice hdistinct b hb
    | some seeds =>
      simp only at hr
      by_cases h1 : seeds.length = 1
      · rw [if_pos h1] at hr
        simp only [Except.ok.injEq] at hr
        rw [← hr]
        unfold invokeCurandInitialize seedOfRequest
        simp only [h1, if_true]
        exact forRange_write_get batchSize batchSlots _ statesDevice hdistinct b hb
      · rw [if_neg h1] at hr
        by_cases h2 : seeds.length = batchSize
        · rw [if_pos h2] at hr
          simp only [Except.ok.injEq] at hr
          rw [← hr]
          unfold invokeCurandBatchInitialize seedOfRequest
          simp only [h1, if_false]
          exact forRange_write_get batchSize batchSlots
            (fun bi => curandInit (seeds.getD bi 0)) statesDevice hdistinct b hb
        · rw [if_neg h2] at hr
          cases hr

/-- C6 at the seed vector `[11, 12]` for the two example requests: the state of the slot of
request 1 is initialised with seed 12. -/
theorem initCurandStates_accepts_iff_witness :
    (invokeCurandBatchInitialize exampleState.mCurandStatesDevice exampleSlots 2 [11, 12])
      (exampleSlots 1) = curandInit 12 :=
  (initCurandStates_accepts_iff (some [11, 12]) 2 exampleSlots
    exampleState.mCurandStatesDevice).2.2 _ rfl exampleSlots_distinct 1 (by decide)

/-- C7 at two requests in slots 0 and 1 with one head: with the seed list `[5]` and with the
seed list `[5, 5]` the per-request state of slot 0 is initialised with seed 5, but the
per-head state of (slot 0, head 0) is initialised with seed 0 for `[5]` and with seed 5 for
`[5, 5]`: `tiledRandomSeed` is filled only when `randomSeed.size() > 1`. -/
theorem setup_single_seed_heads_not_broadcast :
    (setup singleHeadDomain exampleState 2 (Buffer.ofList [0, 1] 0)
        ⟨some [5], none, none⟩).state.mCurandStatesDevice 0 = curandInit 5
    ∧ (setup singleHeadDomain exampleState 2 (Buffer.ofList [0, 1] 0)
        ⟨some [5, 5], none, none⟩).state.mCurandStatesDevice 0 = curandInit 5
    ∧ (setup singleHeadDomain exampleState 2 (Buffer.ofList [0, 1] 0)
        ⟨some [5], none, none⟩).state.mCurandStatesMedusaLogitsDevice 0 = curandInit 0
    ∧ (setup singleHeadDomain exampleState 2 (Buffer.ofList [0, 1] 0)
        ⟨some [5, 5], none, none⟩).state.mCurandStatesMedusaLogitsDevice 0 = curandInit 5 := by
  decide

/-- C8 (amended): `forwardAsync` validates nothing up front; each stage checks the inputs it
reads when it starts. A step without logits, current tokens per step, batch slots or
sequence lengths fails in the first stage and leaves the layer, the outputs and the record
of launched kernels as they were. A step that has the inputs of the first three stages but
no tree ids fails in the fourth stage with "Tree ids must be provided", after the primary
sampling, verification and draft sampling kernels have been launched; the target tokens are
those the primary sampling kernel has written. -/
theorem forwardAsync_fails_at_checking_stage (K : ExternalKernels) (dom : DecoderDomain)
    (s : StepState) (inputs : MedusaDecodingInputs) :
    ((inputs.logits = none ∨ inputs.curTokensPerStep = none ∨ inputs.batchSlots = none
        ∨ s.outputs.sequenceLength = none) →
      (forwardAsync K dom s inputs).error ≠ none ∧ (forwardAsync K dom s inputs).state = s)
    ∧ (∀ batchSize batchSlots tokensPerStep,
      inputs.logits = some batchSize → inputs.batchSlots = some batchSlots →
      inputs.curTokensPerStep = some tokensPerStep → s.outputs.sequenceLength ≠ none →
      s.outputs.numNewTokens ≠ none → s.outputs.nextDraftTokens ≠ none →
      inputs.targetTokensPerStep ≠ none → inputs.treeIds = none →
      (forwardAsync K dom s inputs).error = some .treeIdsMissing
      ∧ (forwardAsync K dom s inputs).state.launched
        = s.launched ++ [.primeHeadSampling, .acceptDraftTokensByIdsWithPaths,
            .medusaHeadsSampling]
      ∧ (forwardAsync K dom s inputs).state.layer.mTargetTokensDevice
        = (invokeBatchTopKSampling K
            (primeHeadSamplingParams dom s.layer batchSize batchSlots tokensPerStep)).1) := by
  constructor
  · intro h
    have h1 : (samplePrimeHeadTokens K dom s inputs).error ≠ none
        ∧ (samplePrimeHeadTokens K dom s inputs).state = s := by
      unfold samplePrimeHeadTokens
      cases hl : inputs.logits with
      | none => simp
      | some batchSize =>
        cases ht : inputs.curTokensPerStep with
        | none => simp
        | some tokens =>
          cases hb : inputs.batchSlots with
          | none => simp
          | some slots =>
            cases hq : s.outputs.sequenceLength with
            | none => simp
            | some seqLen => simp [hl, ht, hb, hq] at h
    obtain ⟨he, hs⟩ := h1
    unfold forwardAsync
    cases herr : (samplePrimeHeadTokens K dom s inputs).error with
    | none => exact absurd herr he
    | some e => simp [Outcome.andThen, herr, hs]
  · intro batchSize batchSlots tokensPerStep hl hb ht hq hn hd htt htree
    obtain ⟨seqLen, hq⟩ := Option.ne_none_iff_exists'.mp hq
    obtain ⟨numNew, hn⟩ := Option.ne_none_iff_exists'.mp hn
    obtain ⟨draft, hd⟩ := Option.ne_none_iff_exists'.mp hd
    obtain ⟨target, htt⟩ := Option.ne_none_iff_exists'.mp htt
    simp [forwardAsync, Outcome.andThen, samplePrimeHeadTokens, acceptDraftTokens,
      sampleNewDraftTokens, scatterNewDraftTokens, hl, hb, ht, hq, hn, hd, htt, htree]

/-- C8 as stated fails: in the example step without tree ids `forwardAsync` throws in the
fourth stage; three kernels have run by then, and entry 0 of the target tokens and of the
new draft tokens is not what it was before the step. -/
theorem forwardAsync_fails_at_checking_stage_counterexample :
    (exampleInputs none).treeIds = none
    ∧ (forwardAsync exampleKernels exampleDomain
        ⟨exampleLayer, exampleOutputs (fun _ => 0), []⟩ (exampleInputs none)).error
      = some .treeIdsMissing
    ∧ (forwardAsync exampleKernels exampleDomain
        ⟨exampleLayer, exampleOutputs (fun _ => 0), []⟩ (exampleInputs none)).state.launched
      = [.primeHeadSampling, .acceptDraftTokensByIdsWithPaths, .medusaHeadsSampling]
    ∧ (forwardAsync exampleKernels exampleDomain
        ⟨exampleLayer, exampleOutputs (fun _ => 0), []⟩
        (exampleInputs none)).state.layer.mTargetTokensDevice 0
      ≠ exampleLayer.mTargetTokensDevice 0
    ∧ (forwardAsync exampleKernels exampleDomain
        ⟨exampleLayer, exampleOutputs (fun _ => 0), []⟩
        (exampleInputs none)).state.layer.mNewDraftTokensDevice 0
      ≠ exampleLayer.mNewDraftTokensDevice 0 :=
  ⟨rfl, by decide, by decide, by decide, by decide⟩

/-- The amended C8 at the example step without batch slots: the state after the failed
step is the state before it. -/
theorem forwardAsync_fails_at_checking_stage_witness :
    (forwardAsync exampleKernels exampleDomain
        ⟨exampleLayer, exampleOutputs (fun _ => 0), []⟩
        { exampleInputs none with batchSlots := none }).state
      = ⟨exampleLayer, exampleOutputs (fun _ => 0), []⟩ :=
  ((forwardAsync_fails_at_checking_stage exampleKernels exampleDomain
    ⟨exampleLayer, exampleOutputs (fun _ => 0), []⟩
    { exampleInputs none with batchSlots := none }).1 (Or.inr (Or.inr (Or.inl rfl)))).2

theorem Buffer.writeAt_natCast {α : Type} (buf : Buffer α) (n m : Nat) (v : α) :
    buf.writeAt ((n : Int) + (m : Int)) v = buf.write (n + m) v := by
  unfold Buffer.writeAt
  have h : (0 : Int) ≤ (n : Int) + (m : Int) := by omega
  rw [if_pos h]
  have h2 : ((n : Int) + (m : Int)).toNat = n + m := by omega
  rw [h2]

theorem primeHeadSampling_step (K : ExternalKernels) (dom : DecoderDomain) (layer : LayerState)
    (batchSize : Nat) (batchSlots : Buffer Nat) (tokensPerStep : Buffer Int) (bi t : Nat)
    (out : Buffer Int) :
    (if (primeHeadSamplingParams dom layer batchSize batchSlots tokensPerStep).samples
          ((primeHeadSamplingParams dom layer batchSize batchSlots tokensPerStep).batchSlots bi) t
      then topKSampleStore K
        (primeHeadSamplingParams dom layer batchSize batchSlots tokensPerStep) bi t out
      else out)
    = if (t : Int) < tokensPerStep (batchSlots bi) then
        out.write (batchSlots bi * dom.maxDecodingTokens + t)
          (K.drawToken (bi * dom.maxDecodingTokens + t) (layer.mRuntimeTopKDevice (batchSlots bi))
            (layer.mCurandStatesDevice (batchSlots bi)) t 0)
      else out := by
  simp only [primeHeadSamplingParams, TopKSamplingKernelParams.samples, topKSampleStore,
    TopKSamplingKernelParams.rowStart, TopKSamplingKernelParams.logitsOf, decide_eq_true_eq,
    Bool.false_eq_true, if_false]
  split
  · rw [Buffer.writeAt_natCast]
  · rfl

/-- C10 (amended): in a forward step that has logits, tokens per step, batch slots and
sequence lengths, `samplePrimeHeadTokens` succeeds and, in the row of each active request
(row length `maxDecodingTokens`, at the request's slot) of the target-token buffer, leaves
every entry at an index `t` not below `tokensPerStep[slot]` unchanged and, the slots being
pairwise distinct, stores at every index `t` below `tokensPerStep[slot]` the token drawn for
that position: the request gets `tokensPerStep[slot]` tokens (at most `maxDecodingTokens`),
not one. -/
theorem samplePrimeHeadTokens_writes_tokensPerStep (K : ExternalKernels) (dom : DecoderDomain)
    (s : StepState) (inputs : MedusaDecodingInputs) (batchSize : Nat) (batchSlots : Buffer Nat)
    (tokensPerStep : Buffer Int)
    (hl : inputs.logits = some batchSize) (hb : inputs.batchSlots = some batchSlots)
    (ht : inputs.curTokensPerStep = some tokensPerStep)
    (hq : s.outputs.sequenceLength ≠ none) :
    (samplePrimeHeadTokens K dom s inputs).error = none
    ∧ (∀ b t, b < batchSize → t < dom.maxDecodingTokens →
      ¬ ((t : Int) < tokensPerStep (batchSlots b)) →
      (samplePrimeHeadTokens K dom s inputs).state.layer.mTargetTokensDevice
          (batchSlots b * dom.maxDecodingTokens + t)
        = s.layer.mTargetTokensDevice (batchSlots b * dom.maxDecodingTokens + t))
    ∧ ((∀ i j, i < batchSize → j < batchSize → batchSlots i = batchSlots j → i = j) →
      ∀ b t, b < batchSize → t < dom.maxDecodingTokens →
      (t : Int) < tokensPerStep (batchSlots b) →
      (samplePrimeHeadTokens K dom s inputs).state.layer.mTargetTokensDevice
          (batchSlots b * dom.maxDecodingTokens + t)
        = K.drawToken (b * dom.maxDecodingTokens + t) (s.layer.mRuntimeTopKDevice (batchSlots b))
            (s.layer.mCurandStatesDevice (batchSlots b)) t 0) := by
  obtain ⟨seqLen, hq⟩ := Option.ne_none_iff_exists'.mp hq
  have hstate : (samplePrimeHeadTokens K dom s inputs).state.layer.mTargetTokensDevice
      = (invokeBatchTopKSampling K
          (primeHeadSamplingParams dom s.layer batchSize batchSlots tokensPerStep)).1 := by
    simp [samplePrimeHeadTokens, hl, hb, ht, hq]
  have hloop : (invokeBatchTopKSampling K
        (primeHeadSamplingParams dom s.layer batchSize batchSlots tokensPerStep)).1
      = forRange batchSize (fun bi out =>
          forRange dom.maxDecodingTokens (fun t out =>
            if (t : Int) < tokensPerStep (batchSlots bi) then
              out.write (batchSlots bi * dom.maxDecodingTokens + t)
                (K.drawToken (bi * dom.maxDecodingTokens + t)
                  (s.layer.mRuntimeTopKDevice (batchSlots bi))
                  (s.layer.mCurandStatesDevice (batchSlots bi)) t 0)
            else out) out) s.layer.mTargetTokensDevice := by
    unfold invokeBatchTopKSampling
    simp only [primeHeadSampling_step]
    rfl
  refine ⟨by simp [samplePrimeHeadTokens, hl, hb, ht, hq], ?_, ?_⟩
  · intro b t hb' ht' hnot
    rw [hstate, hloop]
    apply forRange_buffer_frame
    intro i hi buf
    apply forRange_buffer_frame
    intro t2 ht2 buf2
    split
    · rename_i hlt
      apply Buffer.write_other
      intro heq
      obtain ⟨hs, htt⟩ := flat_index_inj dom.maxDecodingTokens _ _ _ _ ht' ht2 heq
      rw [← hs, ← htt] at hlt
      exact hnot hlt
    · rfl
  · intro hdistinct b t hb' ht' hlt
    rw [hstate, hloop]
    apply forRange_buffer_get batchSize _ _ _ _ b hb'
    · intro buf
      apply forRange_buffer_get dom.maxDecodingTokens _ _ _ _ t ht'
      · intro buf2
        rw [if_pos hlt]
        exact Buffer.write_same _ _ _
      · intro t2 ht2 hne buf2
        split
        · apply Buffer.write_other
          intro heq
          exact hne (flat_index_inj dom.maxDecodingTokens _ _ _ _ ht' ht2 heq).2.symm
        · rfl
    · intro i hi hne buf
      apply forRange_buffer_frame
      intro t2 ht2 buf2
      split
      · apply Buffer.write_other
        intro heq
        exact hne (hdistinct i b hi hb'
          (flat_index_inj dom.maxDecodingTokens _ _ _ _ ht' ht2 heq).1.symm)
      · rfl

/-- C10 as stated fails: with 2 tokens per step for the request in slot 2, entry 1 of its
row of the target-token buffer is written too. -/
theorem samplePrimeHeadTokens_writes_tokensPerStep_counterexample :
    (samplePrimeHeadTokens exampleKernels exampleDomain
        ⟨exampleLayer, exampleOutputs (fun _ => 0), []⟩ (exampleInputs none)).error = none
    ∧ (samplePrimeHeadTokens exampleKernels exampleDomain
        ⟨exampleLayer, exampleOutputs (fun _ => 0), []⟩
        (exampleInputs none)).state.layer.mTargetTokensDevice (2 * 8 + 1)
      ≠ exampleLayer.mTargetTokensDevice (2 * 8 + 1) := by
  decide

/-- The amended C10 at the example step: entry 2 of the row of request 0 is beyond its 2
tokens per step and keeps its value. -/
theorem samplePrimeHeadTokens_writes_tokensPerStep_witness :
    (samplePrimeHeadTokens exampleKernels exampleDomain
        ⟨exampleLayer, exampleOutputs (fun _ => 0), []⟩
        (exampleInputs none)).state.layer.mTargetTokensDevice (exampleSlots 0 * 8 + 2)
      = exampleLayer.mTargetTokensDevice (exampleSlots 0 * 8 + 2) :=
  (samplePrimeHeadTokens_writes_tokensPerStep exampleKernels exampleDomain
    ⟨exampleLayer, exampleOutputs (fun _ => 0), []⟩ (exampleInputs none) 2 exampleSlots
    (fun _ => 2) rfl rfl rfl (by simp [exampleOutputs])).2.1 0 2 (by decide) (by decide)
    (by decide)

theorem forRange_preserves {σ : Type} (P : σ → Prop) (n : Nat) (body : Nat → σ → σ) (init : σ)
    (hinit : P init) (hpreserve : ∀ i, i < n → ∀ s, P s → P (body i s)) :
    P (forRange n body init) := by
  induction n with
  | zero => exact hinit
  | succ k ih =>
    rw [forRange_succ]
    exact hpreserve k (Nat.lt_succ_self k) _
      (ih (fun i hi s hs => hpreserve i (Nat.lt_succ_of_lt hi) s hs))

theorem forRange_tiled_get {α : Type} (n D : Nat) (val : Nat → Nat → α) (init : Buffer α)
    (bi hi : Nat) (hbi : bi < n) (hhi : hi < D) :
    forRange n (fun bi t => forRange D (fun hi t => t.write (bi * D + hi) (val bi hi)) t) init
      (bi * D + hi) = val bi hi := by
  apply forRange_buffer_get n _ init _ _ bi hbi
  · intro buf
    apply forRange_buffer_get D _ buf _ _ hi hhi
    · intro buf2
      exact Buffer.write_same _ _ _
    · intro h2 hh2 hne buf2
      apply Buffer.write_other
      intro heq
      exact hne (flat_index_inj D _ _ _ _ hhi hh2 heq).2.symm
  · intro i _ hne buf
    apply forRange_buffer_frame
    intro h2 hh2 buf2
    apply Buffer.write_other
    intro heq
    exact hne (flat_index_inj D _ _ _ _ hhi hh2 heq).1.symm

theorem forRange_slot_keyed_get {α : Type} (n D : Nat) (slots : Buffer Nat)
    (val : Nat → Nat → α) (init : Buffer α) (b h : Nat) (hb : b < n) (hh : h < D) :
    forRange n (fun bi t =>
        forRange D (fun hi t => t.write (slots bi * D + hi) (val (slots bi) hi)) t) init
      (slots b * D + h) = val (slots b) h := by
  apply forRange_invariant_from (fun t : Buffer α => t (slots b * D + h) = val (slots b) h)
    n _ init b hb
  · intro buf
    apply forRange_buffer_get D _ buf _ _ h hh
    · intro buf2
      exact Buffer.write_same _ _ _
    · intro h2 hh2 hne buf2
      apply Buffer.write_other
      intro heq
      exact hne (flat_index_inj D _ _ _ _ hh hh2 heq).2.symm
  · intro i _ buf hbuf
    apply forRange_preserves (fun t : Buffer α => t (slots b * D + h) = val (slots b) h)
      D _ buf hbuf
    intro h2 hh2 buf2 hbuf2
    by_cases heq : slots b * D + h = slots i * D + h2
    · obtain ⟨hs, hhh⟩ := flat_index_inj D _ _ _ _ hh hh2 heq
      show (buf2.write (slots i * D + h2) (val (slots i) h2)) (slots b * D + h) = _
      rw [heq, Buffer.write_same, ← hs, ← hhh]
    · show (buf2.write (slots i * D + h2) (val (slots i) h2)) (slots b * D + h) = _
      rw [Buffer.write_other _ _ _ _ heq]
      exact hbuf2

theorem Buffer.writeAt_other {α : Type} (buf : Buffer α) (i : Int) (j : Nat) (v : α)
    (h : (j : Int) ≠ i) : buf.writeAt i v j = buf j := by
  unfold Buffer.writeAt
  split
  · apply Buffer.write_other
    intro heq
    apply h
    omega
  · rfl

theorem medusaHeadsSampling_frame (K : ExternalKernels) (p : TopKSamplingKernelParams)
    (ptrs : Buffer Int)
    (hptrs : p.outputIdsPtrs = some ptrs) (hsteps : p.tokensPerStep = none)
    (hone : p.maxTokensPerStep = 1) (hall : p.returnAllTopK = true) (j : Nat)
    (hout : ∀ r, r < p.batchSize →
      ¬ (ptrs (p.batchSlots r) ≤ (j : Int)
        ∧ (j : Int) < ptrs (p.batchSlots r) + p.topKs (p.batchSlots r))) :
    (invokeBatchTopKSampling K p).1 j = p.outputIds j := by
  unfold invokeBatchTopKSampling
  simp only
  apply forRange_buffer_frame
  intro r hr buf
  rw [hone]
  simp only [forRange, TopKSamplingKernelParams.samples, hsteps, if_true, topKSampleStore, hall,
    TopKSamplingKernelParams.rowStart, hptrs]
  apply forRange_buffer_frame
  intro ki hki buf2
  apply Buffer.writeAt_other
  intro heq
  apply hout r hr
  have : (ki : Int) < p.topKs (p.batchSlots r) := by omega
  constructor
  · omega
  · omega

theorem sampleNewDraftTokens_layer (K : ExternalKernels) (dom : DecoderDomain) (s : StepState)
    (inputs : MedusaDecodingInputs) (batchSize : Nat) (batchSlots : Buffer Nat)
    (hl : inputs.logits = some batchSize) (hb : inputs.batchSlots = some batchSlots)
    (hq : s.outputs.sequenceLength ≠ none) :
    (sampleNewDraftTokens K dom s inputs).error = none
    ∧ (sampleNewDraftTokens K dom s inputs).state.layer.mNewDraftTokensDevice
      = (invokeBatchTopKSampling K (medusaHeadsSamplingParams dom s.layer batchSize
          (tileBatchSlotsForward batchSize dom.maxDraftPathLen batchSlots
            s.layer.mTiledBatchSlotsForward)
          (prepareDraftIdsPtrs batchSize dom.maxDraftPathLen dom.maxDecodingTokens batchSlots
            s.layer.mCummulativeTopK s.layer.mDraftIdsPtrHost))).1 := by
  obtain ⟨seqLen, hq⟩ := Option.ne_none_iff_exists'.mp hq
  simp [sampleNewDraftTokens, hl, hb, hq]

theorem row_split (D r n : Nat) (hD : 0 < D) (hr : r < n * D) :
    r / D < n ∧ r % D < D ∧ r = r / D * D + r % D := by
  refine ⟨(Nat.div_lt_iff_lt_mul hD).mpr hr, Nat.mod_lt r hD, ?_⟩
  have := Nat.div_add_mod r D
  rw [Nat.mul_comm] at this
  exact this.symm

/-- C9 (amended): `sampleNewDraftTokens` does not read the finished flags. In a forward
step that has logits, batch slots and sequence lengths, the layer state the stage leaves is
the same whatever the finished flags are, so the region of a request that verification
marked finished is written like that of a live request; and what the stage leaves
unchanged in the flat draft-candidate buffer is every entry outside the write ranges
`[slot * maxDecodingTokens + offset[slot][h], ... + topK[slot][h])` of the active
(request, head) pairs. -/
theorem sampleNewDraftTokens_ignores_finished (K : ExternalKernels) (dom : DecoderDomain)
    (s : StepState) (inputs : MedusaDecodingInputs) (batchSize : Nat) (batchSlots : Buffer Nat)
    (hl : inputs.logits = some batchSize) (hb : inputs.batchSlots = some batchSlots)
    (hq : s.outputs.sequenceLength ≠ none) :
    (∀ finished,
      (sampleNewDraftTokens K dom
          { s with outputs := { s.outputs with finished := finished } } inputs).state.layer
        = (sampleNewDraftTokens K dom s inputs).state.layer)
    ∧ (∀ j : Nat,
      (∀ b h, b < batchSize → h < dom.maxDraftPathLen →
        ¬ (((batchSlots b * dom.maxDecodingTokens : Nat) : Int)
              + s.layer.mCummulativeTopK (batchSlots b * dom.maxDraftPathLen + h) ≤ (j : Int)
          ∧ (j : Int) < ((batchSlots b * dom.maxDecodingTokens : Nat) : Int)
              + s.layer.mCummulativeTopK (batchSlots b * dom.maxDraftPathLen + h)
              + s.layer.mRuntimeTopKPerRequestPerMedusaHeadDevice
                  (dom.maxDraftPathLen * batchSlots b + h))) →
      (sampleNewDraftTokens K dom s inputs).state.layer.mNewDraftTokensDevice j
        = s.layer.mNewDraftTokensDevice j) := by
  constructor
  · intro finished
    obtain ⟨seqLen, hq⟩ := Option.ne_none_iff_exists'.mp hq
    simp [sampleNewDraftTokens, hl, hb, hq]
  · intro j hout
    rw [(sampleNewDraftTokens_layer K dom s inputs batchSize batchSlots hl hb hq).2]
    have hframe := medusaHeadsSampling_frame K
      (medusaHeadsSamplingParams dom s.layer batchSize
        (tileBatchSlotsForward batchSize dom.maxDraftPathLen batchSlots
          s.layer.mTiledBatchSlotsForward)
        (prepareDraftIdsPtrs batchSize dom.maxDraftPathLen dom.maxDecodingTokens batchSlots
          s.layer.mCummulativeTopK s.layer.mDraftIdsPtrHost))
      (prepareDraftIdsPtrs batchSize dom.maxDraftPathLen dom.maxDecodingTokens batchSlots
          s.layer.mCummulativeTopK s.layer.mDraftIdsPtrHost) rfl rfl rfl rfl j
    apply hframe
    intro r hr
    have hr2 : r < batchSize * dom.maxDraftPathLen := hr
    have hD : 0 < dom.maxDraftPathLen := by
      rcases Nat.eq_zero_or_pos dom.maxDraftPathLen with h0 | hpos
      · rw [h0] at hr2
        simp at hr2
      · exact hpos
    obtain ⟨hbi, hhi, hsplit⟩ := row_split dom.maxDraftPathLen r batchSize hD hr2
    have htiled : (medusaHeadsSamplingParams dom s.layer batchSize
        (tileBatchSlotsForward batchSize dom.maxDraftPathLen batchSlots
          s.layer.mTiledBatchSlotsForward)
        (prepareDraftIdsPtrs batchSize dom.maxDraftPathLen dom.maxDecodingTokens batchSlots
          s.layer.mCummulativeTopK s.layer.mDraftIdsPtrHost)).batchSlots r
        = dom.maxDraftPathLen * batchSlots (r / dom.maxDraftPathLen)
          + r % dom.maxDraftPathLen := by
      show tileBatchSlotsForward batchSize dom.maxDraftPathLen batchSlots
        s.layer.mTiledBatchSlotsForward r = _
      conv_lhs => rw [hsplit]
      unfold tileBatchSlotsForward
      exact forRange_tiled_get batchSize dom.maxDraftPathLen
        (fun bi hi => dom.maxDraftPathLen * batchSlots bi + hi) _ _ _ hbi hhi
    have hptr : prepareDraftIdsPtrs batchSize dom.maxDraftPathLen dom.maxDecodingTokens
        batchSlots s.layer.mCummulativeTopK s.layer.mDraftIdsPtrHost
          (dom.maxDraftPathLen * batchSlots (r / dom.maxDraftPathLen) + r % dom.maxDraftPathLen)
        = ((batchSlots (r / dom.maxDraftPathLen) * dom.maxDecodingTokens : Nat) : Int)
          + s.layer.mCummulativeTopK
            (batchSlots (r / dom.maxDraftPathLen) * dom.maxDraftPathLen
              + r % dom.maxDraftPathLen) := by
      rw [Nat.mul_comm dom.maxDraftPathLen]
      unfold prepareDraftIdsPtrs
      exact forRange_slot_keyed_get batchSize dom.maxDraftPathLen batchSlots
        (fun slot hi => ((slot * dom.maxDecodingTokens : Nat) : Int)
          + s.layer.mCummulativeTopK (slot * dom.maxDraftPathLen + hi)) _ _ _ hbi hhi
    rw [htiled, hptr]
    exact hout (r / dom.maxDraftPathLen) (r % dom.maxDraftPathLen) hbi hhi

/-- C9 as stated fails: with the request in slot 0 marked finished, the stage succeeds and
entry 0 of the region of slot 0 in the draft-candidate buffer is overwritten. -/
theorem sampleNewDraftTokens_ignores_finished_counterexample :
    (exampleOutputs (fun _ => 1)).finished.map (fun f => f (exampleSlots 1)) = some 1
    ∧ (sampleNewDraftTokens exampleKernels exampleDomain
        ⟨exampleLayer, exampleOutputs (fun _ => 1), []⟩ (exampleInputs none)).error = none
    ∧ (sampleNewDraftTokens exampleKernels exampleDomain
        ⟨exampleLayer, exampleOutputs (fun _ => 1), []⟩
        (exampleInputs none)).state.layer.mNewDraftTokensDevice (exampleSlots 1 * 8 + 0)
      ≠ exampleLayer.mNewDraftTokensDevice (exampleSlots 1 * 8 + 0) := by
  decide

/-- The amended C9 at the example step: entry 15 of the draft-candidate buffer lies outside
the six write ranges of the two requests and keeps its value. -/
theorem sampleNewDraftTokens_ignores_finished_witness :
    (sampleNewDraftTokens exampleKernels exampleDomain
        ⟨exampleLayer, exampleOutputs (fun _ => 1), []⟩
        (exampleInputs none)).state.layer.mNewDraftTokensDevice 15
      = exampleLayer.mNewDraftTokensDevice 15 :=
  (sampleNewDraftTokens_ignores_finished exampleKernels exampleDomain
    ⟨exampleLayer, exampleOutputs (fun _ => 1), []⟩ (exampleInputs none) 2 exampleSlots
    rfl rfl (by simp [exampleOutputs])).2 15 (by
      intro b h hb hh
      have hh3 : h < 3 := hh
      interval_cases b <;> interval_cases h <;> decide)

theorem tileBatchSlotsForSeeds_get (batchSize D : Nat) (batchSlots init : Buffer Nat)
    (b h : Nat) (hb : b < batchSize) (hh : h < D) :
    tileBatchSlotsForSeeds batchSize D batchSlots init (b * D + h) = batchSlots b + h := by
  unfold tileBatchSlotsForSeeds
  exact forRange_tiled_get batchSize D (fun bi hi => batchSlots bi + hi) init b h hb hh

theorem tileBatchSlotsForTopK_get (batchSize D : Nat) (batchSlots init : Buffer Nat)
    (b h : Nat) (hb : b < batchSize) (hh : h < D) :
    tileBatchSlotsForTopK batchSize D batchSlots init (b * D + h) = D * batchSlots b + h := by
  unfold tileBatchSlotsForTopK
  exact forRange_tiled_get batchSize D (fun bi hi => D * batchSlots bi + hi) init b h hb hh

theorem tileBatchSlotsForward_get (batchSize D : Nat) (batchSlots init : Buffer Nat)
    (b h : Nat) (hb : b < batchSize) (hh : h < D) :
    tileBatchSlotsForward batchSize D batchSlots init (b * D + h) = D * batchSlots b + h := by
  unfold tileBatchSlotsForward
  exact forRange_tiled_get batchSize D (fun bi hi => D * batchSlots bi + hi) init b h hb hh

/-- C13 at the two example requests (slots 2 and 0, 3 heads): for (request 0, head 0)
`setup` seeds the per-head state at index `slot + head = 2` (first tiling, line 169), while
`sampleNewDraftTokens` hands the kernel the index `3 * slot + head = 6` (line 395); the state
at index 6 is the one from before `setup`, and the forward step draws from it. For slots 0
and 1 the first tiling gives (request 0, head 1) and (request 1, head 0) the same index. -/
theorem setup_seeds_heads_at_slot_plus_head :
    tileBatchSlotsForSeeds 2 3 exampleSlots exampleState.mTiledBatchSlotsSetup (0 * 3 + 0) = 2
    ∧ (sampleNewDraftTokens exampleKernels exampleDomain
        ⟨exampleLayer, exampleOutputs (fun _ => 0), []⟩
        (exampleInputs none)).state.layer.mTiledBatchSlotsForward (0 * 3 + 0) = 3 * 2 + 0
    ∧ exampleLayer.mCurandStatesMedusaLogitsDevice (3 * 2 + 0)
      = exampleState.mCurandStatesMedusaLogitsDevice (3 * 2 + 0)
    ∧ (sampleNewDraftTokens exampleKernels exampleDomain
        ⟨exampleLayer, exampleOutputs (fun _ => 0), []⟩
        (exampleInputs none)).state.layer.mCurandStatesMedusaLogitsDevice (3 * 2 + 0)
      = ⟨99, 10⟩
    ∧ tileBatchSlotsForSeeds 2 3 (Buffer.ofList [0, 1] 0) exampleState.mTiledBatchSlotsSetup
        (0 * 3 + 1)
      = tileBatchSlotsForSeeds 2 3 (Buffer.ofList [0, 1] 0) exampleState.mTiledBatchSlotsSetup
        (1 * 3 + 0) := by
  decide

theorem setup_ok_headsTopK (dom : DecoderDomain) (st : LayerState) (batchSize : Nat)
    (batchSlots : Buffer Nat) (p : MedusaSetupParams)
    (hok : (setup dom st batchSize batchSlots p).error = none) :
    (setup dom st batchSize batchSlots p).state.mRuntimeTopKPerRequestPerMedusaHeadDevice
      = invokeScatterDecodingParams
          (runtimeHeadsTopKFlatten p.runtimeHeadsTopK (batchSize * dom.maxDraftPathLen))
          st.mRuntimeTopKPerRequestPerMedusaHeadDevice
          (tileBatchSlotsForTopK batchSize dom.maxDraftPathLen batchSlots
            (tileBatchSlotsForSeeds batchSize dom.maxDraftPathLen batchSlots
              st.mTiledBatchSlotsSetup))
          (batchSize * dom.maxDraftPathLen) := by
  have hv := (setup_error_none_iff dom st batchSize batchSlots p).mp hok
  obtain ⟨states, h1⟩ := (initCurandStates_ok_iff p.randomSeed batchSize batchSlots
    st.mCurandStatesDevice).mpr hv.1
  obtain ⟨headStates, h2⟩ := initCurandStates_tiled_ok
    (p.randomSeed.getD (List.replicate batchSize 0)) batchSize dom.maxDraftPathLen
    (tileBatchSlotsForSeeds batchSize dom.maxDraftPathLen batchSlots st.mTiledBatchSlotsSetup)
    st.mCurandStatesMedusaLogitsDevice
  have h := setup_of_primary_accepted dom st batchSize batchSlots p states headStates h1 h2 hv.2.1
    (by have := hv.2.2; omega)
  simp only at h
  rw [h, if_pos hv.2.2]

theorem tiled_index_inj (D a h c k : Nat) (hh : h < D) (hk : k < D)
    (heq : D * a + h = D * c + k) : a = c ∧ h = k := by
  rw [Nat.mul_comm D a, Nat.mul_comm D c] at heq
  exact flat_index_inj D a h c k hh hk heq

theorem scatter_headsTopK_get (batchSize D : Nat) (batchSlots init : Buffer Nat)
    (flat : List Int) (dst : Buffer Int)
    (hdistinct : ∀ i j, i < batchSize → j < batchSize → batchSlots i = batchSlots j → i = j)
    (b h : Nat) (hb : b < batchSize) (hh : h < D) :
    invokeScatterDecodingParams flat dst (tileBatchSlotsForTopK batchSize D batchSlots init)
        (batchSize * D) (D * batchSlots b + h)
      = flat.getD (b * D + h) 0 := by
  have hD : 0 < D := by omega
  have hrow : b * D + h < batchSize * D := by
    have : (b + 1) * D ≤ batchSize * D := Nat.mul_le_mul_right D hb
    rw [Nat.add_mul] at this
    omega
  have hget := tileBatchSlotsForTopK_get batchSize D batchSlots init b h hb hh
  rw [← hget]
  unfold invokeScatterDecodingParams
  apply forRange_write_get (batchSize * D)
    (tileBatchSlotsForTopK batchSize D batchSlots init) (fun bi => flat.getD bi 0) dst _ _ hrow
  intro i j hi hj heq
  obtain ⟨hi1, hi2, hi3⟩ := row_split D i batchSize hD hi
  obtain ⟨hj1, hj2, hj3⟩ := row_split D j batchSize hD hj
  rw [hi3, hj3, tileBatchSlotsForTopK_get batchSize D batchSlots init _ _ hi1 hi2,
    tileBatchSlotsForTopK_get batchSize D batchSlots init _ _ hj1 hj2] at heq
  obtain ⟨hs, hm⟩ := tiled_index_inj D _ _ _ _ hi2 hj2 heq
  have := hdistinct _ _ hi1 hj1 hs
  rw [hi3, hj3, this, hm]

theorem sum_range_mono_of_nonneg (f : Nat → Int) (D : Nat) (hf : ∀ k, k < D → 0 ≤ f k)
    (h h2 : Nat) (hle : h ≤ h2) (h2le : h2 ≤ D) :
    ∑ k in range h, f k ≤ ∑ k in range h2, f k := by
  apply Finset.sum_le_sum_of_subset_of_nonneg
  · intro x hx
    simp only [Finset.mem_range] at hx ⊢
    omega
  · intro i hi _
    simp only [Finset.mem_range] at hi
    exact hf i (by omega)

theorem sampleNewDraftTokens_tables (K : ExternalKernels) (dom : DecoderDomain) (s : StepState)
    (inputs : MedusaDecodingInputs) (batchSize : Nat) (batchSlots : Buffer Nat)
    (hl : inputs.logits = some batchSize) (hb : inputs.batchSlots = some batchSlots)
    (hq : s.outputs.sequenceLength ≠ none) :
    (sampleNewDraftTokens K dom s inputs).state.layer.mTiledBatchSlotsForward
      = tileBatchSlotsForward batchSize dom.maxDraftPathLen batchSlots
          s.layer.mTiledBatchSlotsForward
    ∧ (sampleNewDraftTokens K dom s inputs).state.layer.mDraftIdsPtrHost
      = prepareDraftIdsPtrs batchSize dom.maxDraftPathLen dom.maxDecodingTokens batchSlots
          s.layer.mCummulativeTopK s.layer.mDraftIdsPtrHost
    ∧ (sampleNewDraftTokens K dom s inputs).state.layer.mRuntimeTopKPerRequestPerMedusaHeadDevice
      = s.layer.mRuntimeTopKPerRequestPerMedusaHeadDevice := by
  obtain ⟨seqLen, hq⟩ := Option.ne_none_iff_exists'.mp hq
  simp [sampleNewDraftTokens, hl, hb, hq]

theorem prepareDraftIdsPtrs_get (batchSize D W : Nat) (batchSlots : Buffer Nat)
    (cum init : Buffer Int) (b h : Nat) (hb : b < batchSize) (hh : h < D) :
    prepareDraftIdsPtrs batchSize D W batchSlots cum init (D * batchSlots b + h)
      = ((batchSlots b * W : Nat) : Int) + cum (batchSlots b * D + h) := by
  rw [Nat.mul_comm D]
  unfold prepareDraftIdsPtrs
  exact forRange_slot_keyed_get batchSize D batchSlots
    (fun slot hi => ((slot * W : Nat) : Int) + cum (slot * D + hi)) init b h hb hh

theorem draftWriteRange_after_setup (K : ExternalKernels) (dom : DecoderDomain)
    (st : LayerState) (batchSize : Nat) (batchSlots : Buffer Nat) (p : MedusaSetupParams)
    (outputs : SpeculativeDecodingOutputs) (launched : List KernelLaunch)
    (inputs : MedusaDecodingInputs)
    (hdistinct : ∀ i j, i < batchSize → j < batchSize → batchSlots i = batchSlots j → i = j)
    (hok : (setup dom st batchSize batchSlots p).error = none)
    (htopk : ∀ b h, b < batchSize → h < dom.maxDraftPathLen →
      1 ≤ (runtimeHeadsTopKFlatten p.runtimeHeadsTopK (batchSize * dom.maxDraftPathLen)).getD
        (b * dom.maxDraftPathLen + h) 0)
    (hsum : ∀ b, b < batchSize →
      ∑ k in range dom.maxDraftPathLen,
        (runtimeHeadsTopKFlatten p.runtimeHeadsTopK (batchSize * dom.maxDraftPathLen)).getD
          (b * dom.maxDraftPathLen + k) 0 ≤ (dom.maxDecodingTokens : Int))
    (hW : dom.maxDecodingTokens < 2147483648)
    (hl : inputs.logits = some batchSize) (hbs : inputs.batchSlots = some batchSlots)
    (hq : outputs.sequenceLength ≠ none)
    (b h : Nat) (hb : b < batchSize) (hh : h < dom.maxDraftPathLen) :
    draftWriteRange
        (sampleNewDraftTokens K dom
          ⟨(setup dom st batchSize batchSlots p).state, outputs, launched⟩ inputs).state.layer
        dom.maxDraftPathLen b h
      = (((batchSlots b * dom.maxDecodingTokens : Nat) : Int)
          + ∑ k in range h,
            (runtimeHeadsTopKFlatten p.runtimeHeadsTopK (batchSize * dom.maxDraftPathLen)).getD
              (b * dom.maxDraftPathLen + k) 0,
        ((batchSlots b * dom.maxDecodingTokens : Nat) : Int)
          + ∑ k in range (h + 1),
            (runtimeHeadsTopKFlatten p.runtimeHeadsTopK (batchSize * dom.maxDraftPathLen)).getD
              (b * dom.maxDraftPathLen + k) 0) := by
  obtain ⟨htile, hptr, htopKdev⟩ := sampleNewDraftTokens_tables K dom
    ⟨(setup dom st batchSize batchSlots p).state, outputs, launched⟩ inputs batchSize batchSlots
    hl hbs hq
  have hnonneg : ∀ k, k < dom.maxDraftPathLen →
      0 ≤ (runtimeHeadsTopKFlatten p.runtimeHeadsTopK (batchSize * dom.maxDraftPathLen)).getD
        (b * dom.maxDraftPathLen + k) 0 := by
    intro k hk
    have := htopk b k hb hk
    omega
  have hfits : InInt32 (∑ k in range h,
      (runtimeHeadsTopKFlatten p.runtimeHeadsTopK (batchSize * dom.maxDraftPathLen)).getD
        (b * dom.maxDraftPathLen + k) 0) := by
    have hle := sum_range_mono_of_nonneg _ dom.maxDraftPathLen hnonneg h dom.maxDraftPathLen
      (by omega) (le_refl _)
    have hge := sum_range_mono_of_nonneg _ dom.maxDraftPathLen hnonneg 0 h (by omega) (by omega)
    simp only [Finset.range_zero, Finset.sum_empty] at hge
    have := hsum b hb
    unfold InInt32
    omega
  unfold draftWriteRange
  rw [htile, hptr, htopKdev]
  simp only
  rw [tileBatchSlotsForward_get batchSize dom.maxDraftPathLen batchSlots _ b h hb hh,
    prepareDraftIdsPtrs_get batchSize dom.maxDraftPathLen dom.maxDecodingTokens batchSlots _ _
      b h hb hh,
    setup_ok_cumulative dom st batchSize batchSlots p hok,
    cumulativeTopKLoop_get batchSize dom.maxDraftPathLen batchSlots _ _ hdistinct b h hb hh,
    wrapInt32_of_inInt32 _ hfits,
    setup_ok_headsTopK dom st batchSize batchSlots p hok,
    scatter_headsTopK_get batchSize dom.maxDraftPathLen batchSlots _ _ _ hdistinct b h hb hh,
    Finset.sum_range_succ]
  simp only [add_assoc]

/-- C12: after a successful `setup` with pairwise distinct batch slots below the maximum
batch size, per-head top-k values (supplied or defaulted) at least 1 and per-request sum of
the head top-k values at most `maxDecodingTokens` (itself a `SizeType32`), the write range
that `sampleNewDraftTokens` sets up for (request `b`, head `h`) is
`[slot * W + offset[slot][h], slot * W + offset[slot][h] + topK[b][h])`, it lies inside the
slice `[slot * W, (slot + 1) * W)` of the request, and it is disjoint from the range of
every other (request, head) pair. The bound of the slots by the capacity keeps the accesses
inside the buffers of `allocateBuffer`; the buffers of the model are unbounded and the proof
does not use it. -/
theorem draft_write_ranges_disjoint (K : ExternalKernels) (dom : DecoderDomain)
    (st : LayerState) (batchSize : Nat) (batchSlots : Buffer Nat) (p : MedusaSetupParams)
    (outputs : SpeculativeDecodingOutputs) (launched : List KernelLaunch)
    (inputs : MedusaDecodingInputs)
    (hdistinct : ∀ i j, i < batchSize → j < batchSize → batchSlots i = batchSlots j → i = j)
    (_hbelow : ∀ i, i < batchSize → batchSlots i < dom.batchSize)
    (hok : (setup dom st batchSize batchSlots p).error = none)
    (htopk : ∀ b h, b < batchSize → h < dom.maxDraftPathLen →
      1 ≤ (runtimeHeadsTopKFlatten p.runtimeHeadsTopK (batchSize * dom.maxDraftPathLen)).getD
        (b * dom.maxDraftPathLen + h) 0)
    (hsum : ∀ b, b < batchSize →
      ∑ k in range dom.maxDraftPathLen,
        (runtimeHeadsTopKFlatten p.runtimeHeadsTopK (batchSize * dom.maxDraftPathLen)).getD
          (b * dom.maxDraftPathLen + k) 0 ≤ (dom.maxDecodingTokens : Int))
    (hW : dom.maxDecodingTokens < 2147483648)
    (hl : inputs.logits = some batchSize) (hbs : inputs.batchSlots = some batchSlots)
    (hq : outputs.sequenceLength ≠ none)
    (b h : Nat) (hb : b < batchSize) (hh : h < dom.maxDraftPathLen) :
    (draftWriteRange
        (sampleNewDraftTokens K dom
          ⟨(setup dom st batchSize batchSlots p).state, outputs, launched⟩ inputs).state.layer
        dom.maxDraftPathLen b h
      = (((batchSlots b * dom.maxDecodingTokens : Nat) : Int)
          + (setup dom st batchSize batchSlots p).state.mCummulativeTopK
              (batchSlots b * dom.maxDraftPathLen + h),
        ((batchSlots b * dom.maxDecodingTokens : Nat) : Int)
          + (setup dom st batchSize batchSlots p).state.mCummulativeTopK
              (batchSlots b * dom.maxDraftPathLen + h)
          + (runtimeHeadsTopKFlatten p.runtimeHeadsTopK
              (batchSize * dom.maxDraftPathLen)).getD (b * dom.maxDraftPathLen + h) 0))
    ∧ ((batchSlots b * dom.maxDecodingTokens : Nat) : Int)
      ≤ (draftWriteRange
        (sampleNewDraftTokens K dom
          ⟨(setup dom st batchSize batchSlots p).state, outputs, launched⟩ inputs).state.layer
        dom.maxDraftPathLen b h).1
    ∧ (draftWriteRange
        (sampleNewDraftTokens K dom
          ⟨(setup dom st batchSize batchSlots p).state, outputs, launched⟩ inputs).state.layer
        dom.maxDraftPathLen b h).2
      ≤ (((batchSlots b + 1) * dom.maxDecodingTokens : Nat) : Int)
    ∧ ∀ b2 h2, b2 < batchSize → h2 < dom.maxDraftPathLen → (b2, h2) ≠ (b, h) →
      (draftWriteRange
          (sampleNewDraftTokens K dom
            ⟨(setup dom st batchSize batchSlots p).state, outputs, launched⟩ inputs).state.layer
          dom.maxDraftPathLen b h).2
        ≤ (draftWriteRange
          (sampleNewDraftTokens K dom
            ⟨(setup dom st batchSize batchSlots p).state, outputs, launched⟩ inputs).state.layer
          dom.maxDraftPathLen b2 h2).1
      ∨ (draftWriteRange
          (sampleNewDraftTokens K dom
            ⟨(setup dom st batchSize batchSlots p).state, outputs, launched⟩ inputs).state.layer
          dom.maxDraftPathLen b2 h2).2
        ≤ (draftWriteRange
          (sampleNewDraftTokens K dom
            ⟨(setup dom st batchSize batchSlots p).state, outputs, launched⟩ inputs).state.layer
          dom.maxDraftPathLen b h).1 := by
  have hrange := fun b h hb hh => draftWriteRange_after_setup K dom st batchSize batchSlots p
    outputs launched inputs hdistinct hok htopk hsum hW hl hbs hq b h hb hh
  have hnonneg : ∀ b k, b < batchSize → k < dom.maxDraftPathLen →
      0 ≤ (runtimeHeadsTopKFlatten p.runtimeHeadsTopK (batchSize * dom.maxDraftPathLen)).getD
        (b * dom.maxDraftPathLen + k) 0 := by
    intro b k hb hk
    have := htopk b k hb hk
    omega
  have hmono := fun b (hb : b < batchSize) =>
    sum_range_mono_of_nonneg
      (fun k => (runtimeHeadsTopKFlatten p.runtimeHeadsTopK
        (batchSize * dom.maxDraftPathLen)).getD (b * dom.maxDraftPathLen + k) 0)
      dom.maxDraftPathLen (fun k hk => hnonneg b k hb hk)
  have hlow : ∀ b h, b < batchSize → h ≤ dom.maxDraftPathLen →
      0 ≤ ∑ k in range h,
        (runtimeHeadsTopKFlatten p.runtimeHeadsTopK (batchSize * dom.maxDraftPathLen)).getD
          (b * dom.maxDraftPathLen + k) 0 := by
    intro b h hb hh
    have := hmono b hb 0 h (by omega) hh
    simpa using this
  have hhigh : ∀ b h, b < batchSize → h ≤ dom.maxDraftPathLen →
      ∑ k in range h,
        (runtimeHeadsTopKFlatten p.runtimeHeadsTopK (batchSize * dom.maxDraftPathLen)).getD
          (b * dom.maxDraftPathLen + k) 0 ≤ (dom.maxDecodingTokens : Int) := by
    intro b h hb hh
    exact le_trans (hmono b hb h dom.maxDraftPathLen hh (le_refl _)) (hsum b hb)
  refine ⟨?_, ?_, ?_, ?_⟩
  · rw [hrange b h hb hh, Finset.sum_range_succ, setup_ok_cumulative dom st batchSize batchSlots
      p hok, cumulativeTopKLoop_get batchSize dom.maxDraftPathLen batchSlots _ _ hdistinct b h
      hb hh]
    have hfits : InInt32 (∑ k in range h,
        (runtimeHeadsTopKFlatten p.runtimeHeadsTopK (batchSize * dom.maxDraftPathLen)).getD
          (b * dom.maxDraftPathLen + k) 0) := by
      have h1 := hlow b h hb (by omega)
      have h2 := hhigh b h hb (by omega)
      unfold InInt32
      omega
    rw [wrapInt32_of_inInt32 _ hfits]
    simp only [add_assoc]
  · rw [hrange b h hb hh]
    have := hlow b h hb (by omega)
    simp only
    omega
  · rw [hrange b h hb hh]
    have := hhigh b (h + 1) hb (by omega)
    simp only
    push_cast
    rw [add_mul]
    omega
  · intro b2 h2 hb2 hh2 hne
    rw [hrange b h hb hh, hrange b2 h2 hb2 hh2]
    simp only
    by_cases hbb : b2 = b
    · subst hbb
      have hhne : h2 ≠ h := fun heq => hne (by rw [heq])
      rcases Nat.lt_or_gt_of_ne hhne with hlt | hgt
      · right
        have := hmono b2 hb2 (h2 + 1) h (by omega) (by omega)
        omega
      · left
        have := hmono b2 hb2 (h + 1) h2 (by omega) (by omega)
        omega
    · have hslots : batchSlots b2 ≠ batchSlots b := fun heq => hbb (hdistinct b2 b hb2 hb heq)
      have e1 := hhigh b (h + 1) hb (by omega)
      have e2 := hhigh b2 (h2 + 1) hb2 (by omega)
      have l1 := hlow b h hb (by omega)
      have l2 := hlow b2 h2 hb2 (by omega)
      rcases Nat.lt_or_gt_of_ne hslots with hlt | hgt
      · right
        have hm : (batchSlots b2 + 1) * dom.maxDecodingTokens
            ≤ batchSlots b * dom.maxDecodingTokens := Nat.mul_le_mul_right _ hlt
        have hm2 : (((batchSlots b2 + 1) * dom.maxDecodingTokens : Nat) : Int)
            ≤ ((batchSlots b * dom.maxDecodingTokens : Nat) : Int) := by exact_mod_cast hm
        push_cast at hm2 ⊢
        rw [add_mul] at hm2
        omega
      · left
        have hm : (batchSlots b + 1) * dom.maxDecodingTokens
            ≤ batchSlots b2 * dom.maxDecodingTokens := Nat.mul_le_mul_right _ hgt
        have hm2 : (((batchSlots b + 1) * dom.maxDecodingTokens : Nat) : Int)
            ≤ ((batchSlots b2 * dom.maxDecodingTokens : Nat) : Int) := by exact_mod_cast hm
        push_cast at hm2 ⊢
        rw [add_mul] at hm2
        omega

/-- C12 at the example requests with per-head top-k rows `[1, 2, 3]` and `[2, 2, 2]`: the
range of (request 0, head 1) lies inside the slice of slot 2. -/
theorem draft_write_ranges_disjoint_witness :
    ((exampleSlots 0 * exampleDomain.maxDecodingTokens : Nat) : Int)
      ≤ (draftWriteRange
        (sampleNewDraftTokens exampleKernels exampleDomain
          ⟨(setup exampleDomain exampleState 2 exampleSlots
              ⟨some [5], none, some [[1, 2, 3], [2, 2, 2]]⟩).state,
            exampleOutputs (fun _ => 0), []⟩ (exampleInputs none)).state.layer
        exampleDomain.maxDraftPathLen 0 1).1
    ∧ (draftWriteRange
        (sampleNewDraftTokens exampleKernels exampleDomain
          ⟨(setup exampleDomain exampleState 2 exampleSlots
              ⟨some [5], none, some [[1, 2, 3], [2, 2, 2]]⟩).state,
            exampleOutputs (fun _ => 0), []⟩ (exampleInputs none)).state.layer
        exampleDomain.maxDraftPathLen 0 1).2
      ≤ (((exampleSlots 0 + 1) * exampleDomain.maxDecodingTokens : Nat) : Int) :=
  have h := draft_write_ranges_disjoint exampleKernels exampleDomain exampleState 2 exampleSlots
    ⟨some [5], none, some [[1, 2, 3], [2, 2, 2]]⟩ (exampleOutputs (fun _ => 0)) []
    (exampleInputs none) exampleSlots_distinct
    (by
      intro i hi
      interval_cases i <;> decide)
    (by decide)
    (by
      intro b h hb hh
      have hh3 : h < 3 := hh
      interval_cases b <;> interval_cases h <;> decide)
    (by
      intro b hb
      interval_cases b <;>
        simp [Finset.sum_range_succ, exampleDomain, runtimeHeadsTopKFlatten])
    (by decide) rfl rfl (by simp [exampleOutputs]) 0 1 (by decide) (by decide)
  ⟨h.2.1, h.2.2.1⟩

theorem walkPath_isAcceptedPrefix (v : VerifyData) (slot pathIdx : Nat) (fuel i : Nat)
    (hfuel : i + fuel = v.maxDraftPathLen + 1)
    (hmatch : ∀ j, j < i → v.pathNode slot pathIdx j ≠ -1
      ∧ v.draftToken slot (v.pathNode slot pathIdx j) = v.trueToken slot j)
    (hnoend : ∀ j, j < i → v.isEndToken slot (v.trueToken slot j) = false) :
    v.IsAcceptedPrefix slot pathIdx (v.walkPath slot pathIdx fuel i) := by
  induction fuel generalizing i with
  | zero =>
    unfold VerifyData.walkPath
    exact ⟨by omega, hmatch, fun j hj => hnoend j (by omega), Or.inl (by omega)⟩
  | succ fuel ih =>
    unfold VerifyData.walkPath
    by_cases h1 : v.pathNode slot pathIdx i = -1
    · rw [if_pos h1]
      exact ⟨by omega, hmatch, fun j hj => hnoend j (by omega), Or.inr (Or.inr (Or.inl h1))⟩
    · rw [if_neg h1]
      by_cases h2 : v.draftToken slot (v.pathNode slot pathIdx i) ≠ v.trueToken slot i
      · rw [if_pos h2]
        exact ⟨by omega, hmatch, fun j hj => hnoend j (by omega),
          Or.inr (Or.inr (Or.inr h2))⟩
      · rw [if_neg h2]
        have h2eq : v.draftToken slot (v.pathNode slot pathIdx i) = v.trueToken slot i :=
          not_not.mp h2
        have hmatch2 : ∀ j, j < i + 1 → v.pathNode slot pathIdx j ≠ -1
            ∧ v.draftToken slot (v.pathNode slot pathIdx j) = v.trueToken slot j := by
          intro j hj
          by_cases hji : j = i
          · subst hji
            exact ⟨h1, h2eq⟩
          · exact hmatch j (by omega)
        by_cases h3 : v.isEndToken slot (v.trueToken slot i) = true
        · rw [if_pos h3]
          refine ⟨by omega, hmatch2, fun j hj => hnoend j (by omega), Or.inr (Or.inl ?_)⟩
          exact ⟨by omega, by simpa using h3⟩
        · rw [if_neg h3]
          apply ih (i + 1) (by omega) hmatch2
          intro j hj
          by_cases hji : j = i
          · subst hji
            simpa using h3
          · exact hnoend j (by omega)

theorem IsAcceptedPrefix_unique (v : VerifyData) (slot pathIdx n m : Nat)
    (hn : v.IsAcceptedPrefix slot pathIdx n) (hm : v.IsAcceptedPrefix slot pathIdx m) :
    n = m := by
  have key : ∀ a c, v.IsAcceptedPrefix slot pathIdx a → v.IsAcceptedPrefix slot pathIdx c →
      ¬ a < c := by
    intro a c ha hc hlt
    obtain ⟨_, _, _, hstop⟩ := ha
    obtain ⟨hcle, hcmatch, hcnoend, _⟩ := hc
    rcases hstop with h | ⟨hpos, hend⟩ | h | h
    · omega
    · have := hcnoend (a - 1) (by omega)
      rw [this] at hend
      cases hend
    · exact (hcmatch a hlt).1 h
    · exact h (hcmatch a hlt).2
  have h1 := key n m hn hm
  have h2 := key m n hm hn
  omega

theorem acceptedLength_bounds (v : VerifyData) (slot pathIdx : Nat) :
    1 ≤ v.acceptedLength slot pathIdx ∧ v.acceptedLength slot pathIdx ≤ v.maxDraftPathLen + 1 := by
  have h := (walkPath_isAcceptedPrefix v slot pathIdx (v.maxDraftPathLen + 1) 0 (by omega)
    (fun j hj => absurd hj (Nat.not_lt_zero j)) (fun j hj => absurd hj (Nat.not_lt_zero j))).1
  unfold VerifyData.acceptedLength
  omega

/-- The scan over the first `n` candidate paths of a slot. -/
theorem selectBestPath_scan (v : VerifyData) (slot : Nat) (hfirst : 0 < v.curTokensPerStep slot)
    (n : Nat) (hn : 0 < n) :
    let best := forRange n (fun pathIdx (best : Nat × Nat) =>
      if (pathIdx : Int) < v.curTokensPerStep slot ∧ best.1 < v.acceptedLength slot pathIdx then
        (v.acceptedLength slot pathIdx, pathIdx)
      else best) (0, 0)
    best.2 < n ∧ (best.2 : Int) < v.curTokensPerStep slot
    ∧ best.1 = v.acceptedLength slot best.2
    ∧ ∀ p, p < n → (p : Int) < v.curTokensPerStep slot →
      v.acceptedLength slot p ≤ best.1 ∧ (v.acceptedLength slot p = best.1 → best.2 ≤ p) := by
  induction n with
  | zero => omega
  | succ k ih =>
    rcases Nat.eq_zero_or_pos k with hk | hk
    · subst hk
      have hpos := (acceptedLength_bounds v slot 0).1
      have hcond : ((0 : Nat) : Int) < v.curTokensPerStep slot
          ∧ (0, 0).1 < v.acceptedLength slot 0 := ⟨by simpa using hfirst, hpos⟩
      intro best
      have hval : best = (v.acceptedLength slot 0, 0) := by
        simp only [best, forRange, if_pos hcond]
      rw [hval]
      refine ⟨by omega, by simpa using hfirst, rfl, ?_⟩
      intro p hp _
      have hp0 : p = 0 := by omega
      subst hp0
      exact ⟨le_refl _, fun _ => le_refl _⟩
    · obtain ⟨h1, h2, h3, h4⟩ := ih hk
      simp only [forRange_succ]
      split
      · rename_i hcond
        refine ⟨by omega, hcond.1, rfl, ?_⟩
        intro p hp hvalid
        by_cases hpk : p = k
        · subst hpk
          exact ⟨le_refl _, fun _ => le_refl _⟩
        · have := h4 p (by omega) hvalid
          constructor
          · simp only
            omega
          · intro heq
            simp only at heq
            omega
      · rename_i hcond
        refine ⟨by omega, h2, h3, ?_⟩
        intro p hp hvalid
        by_cases hpk : p = k
        · subst hpk
          have hle : v.acceptedLength slot p ≤ (forRange p (fun pathIdx (best : Nat × Nat) =>
              if (pathIdx : Int) < v.curTokensPerStep slot
                  ∧ best.1 < v.acceptedLength slot pathIdx then
                (v.acceptedLength slot pathIdx, pathIdx)
              else best) (0, 0)).1 := by
            by_contra hlt
            exact hcond ⟨hvalid, by omega⟩
          exact ⟨hle, fun _ => by omega⟩
        · exact h4 p (by omega) hvalid

theorem selectBestPath_spec (v : VerifyData) (slot : Nat)
    (hfirst : 0 < v.curTokensPerStep slot) (hW : 0 < v.maxDecodingTokens) :
    (v.selectBestPath slot).2 < v.maxDecodingTokens
    ∧ ((v.selectBestPath slot).2 : Int) < v.curTokensPerStep slot
    ∧ (v.selectBestPath slot).1 = v.acceptedLength slot (v.selectBestPath slot).2
    ∧ ∀ p, p < v.maxDecodingTokens → (p : Int) < v.curTokensPerStep slot →
      v.acceptedLength slot p ≤ (v.selectBestPath slot).1
      ∧ (v.acceptedLength slot p = (v.selectBestPath slot).1 → (v.selectBestPath slot).2 ≤ p) :=
  selectBestPath_scan v slot hfirst v.maxDecodingTokens hW

/-- C11: with the verification kernel of the spec, all inputs of the stage present, pairwise
distinct slots and at least one valid candidate path for the request, `acceptDraftTokens`
records for the request in slot `batchSlots b` a best path id `best` and `numNewTokens = len`
such that: every path `p` has an accepted prefix `accepted p` (the longest prefix on which
the draft token equals the true token, stopped at the end token) and accepted length
`max 1 (accepted p)`; `best` is among the first `tokensPerStep` paths; `len` is the accepted
length of `best`; no path among the first `tokensPerStep` has a larger accepted length, and
one with the same accepted length has a path id not below `best`; and `len` lies in
`[1, maxDraftPathLen + 1]`. -/
theorem acceptDraftTokens_selects_longest_path (K : ExternalKernels) (dom : DecoderDomain)
    (s : StepState) (inputs : MedusaDecodingInputs) (batchSize : Nat) (batchSlots : Buffer Nat)
    (tokensPerStep draftIds : Buffer Int)
    (hK : K.acceptDraftTokensByIdsWithPaths = acceptDraftTokensByIdsWithPaths)
    (hl : inputs.logits = some batchSize) (hbs : inputs.batchSlots = some batchSlots)
    (ht : inputs.curTokensPerStep = some tokensPerStep)
    (hd : s.outputs.nextDraftTokens = some draftIds)
    (hnn : s.outputs.numNewTokens ≠ none) (hq : s.outputs.sequenceLength ≠ none)
    (htt : inputs.targetTokensPerStep ≠ none)
    (hdistinct : ∀ i j, i < batchSize → j < batchSize → batchSlots i = batchSlots j → i = j)
    (hW : 0 < dom.maxDecodingTokens)
    (b : Nat) (hb : b < batchSize) (hfirst : 0 < tokensPerStep (batchSlots b)) :
    ∃ (best len : Nat) (numNewTokens : Buffer Int) (accepted : Nat → Nat),
      (acceptDraftTokens K dom s inputs).error = none
      ∧ (acceptDraftTokens K dom s inputs).state.layer.mBestPathIdsDevice (batchSlots b)
        = (best : Int)
      ∧ (acceptDraftTokens K dom s inputs).state.outputs.numNewTokens = some numNewTokens
      ∧ numNewTokens (batchSlots b) = (len : Int)
      ∧ (∀ p, (verificationData dom s inputs draftIds tokensPerStep).IsAcceptedPrefix
          (batchSlots b) p (accepted p))
      ∧ best < dom.maxDecodingTokens ∧ (best : Int) < tokensPerStep (batchSlots b)
      ∧ len = max 1 (accepted best)
      ∧ (∀ p, p < dom.maxDecodingTokens → (p : Int) < tokensPerStep (batchSlots b) →
          max 1 (accepted p) ≤ len ∧ (max 1 (accepted p) = len → best ≤ p))
      ∧ 1 ≤ len ∧ len ≤ dom.maxDraftPathLen + 1 := by
  obtain ⟨numNew, hnn⟩ := Option.ne_none_iff_exists'.mp hnn
  obtain ⟨seqLen, hq⟩ := Option.ne_none_iff_exists'.mp hq
  obtain ⟨target, htt⟩ := Option.ne_none_iff_exists'.mp htt
  have hsel := selectBestPath_spec (verificationData dom s inputs draftIds tokensPerStep)
    (batchSlots b) hfirst hW
  obtain ⟨hs1, hs2, hs3, hs4⟩ := hsel
  have hbounds := acceptedLength_bounds (verificationData dom s inputs draftIds tokensPerStep)
    (batchSlots b)
    ((verificationData dom s inputs draftIds tokensPerStep).selectBestPath (batchSlots b)).2
  refine ⟨((verificationData dom s inputs draftIds tokensPerStep).selectBestPath
      (batchSlots b)).2,
    ((verificationData dom s inputs draftIds tokensPerStep).selectBestPath (batchSlots b)).1,
    forRange batchSize (fun bi t => t.write (batchSlots bi)
      (((verificationData dom s inputs draftIds tokensPerStep).selectBestPath
        (batchSlots bi)).1 : Int)) numNew,
    fun p => (verificationData dom s inputs draftIds tokensPerStep).walkPath (batchSlots b) p
      (dom.maxDraftPathLen + 1) 0,
    ?_, ?_, ?_, ?_, ?_, hs1, hs2, hs3, hs4, ?_, ?_⟩
  · simp [acceptDraftTokens, hl, hnn, ht, hd, hbs, hq, htt]
  · have hstate : (acceptDraftTokens K dom s inputs).state.layer.mBestPathIdsDevice
        = forRange batchSize (fun bi t => t.write (batchSlots bi)
            (((verificationData dom s inputs draftIds tokensPerStep).selectBestPath
              (batchSlots bi)).2 : Int)) s.layer.mBestPathIdsDevice := by
      simp [acceptDraftTokens, hl, hnn, ht, hd, hbs, hq, htt, hK,
        acceptDraftTokensByIdsWithPaths, AcceptArgs.verifyData, verificationData]
    rw [hstate]
    exact forRange_write_get batchSize batchSlots _ _ hdistinct b hb
  · simp [acceptDraftTokens, hl, hnn, ht, hd, hbs, hq, htt, hK,
      acceptDraftTokensByIdsWithPaths, AcceptArgs.verifyData, verificationData]
  · exact forRange_write_get batchSize batchSlots _ _ hdistinct b hb
  · intro p
    exact walkPath_isAcceptedPrefix _ _ _ _ _ (by simp [verificationData])
      (fun j hj => absurd hj (Nat.not_lt_zero j)) (fun j hj => absurd hj (Nat.not_lt_zero j))
  · rw [hs3]
    exact hbounds.1
  · rw [hs3]
    exact hbounds.2

/-- C11 at the scenario of the claim (one request, `D = 2`, paths `[[0, 1, 2], [0, 1, 3],
[0, 4]]`, draft tokens `[5, 7, 9, 7, 2]`, true tokens `[5, 7, 2]`, end id 99): the best path
is 0, `numNewTokens` is 2, the appended tokens are 5 and 7, and no path has an accepted
length above 2. -/
theorem acceptDraftTokens_selects_longest_path_witness :
    (acceptDraftTokens specKernels scenarioDomain scenarioState
        scenarioInputs).state.layer.mBestPathIdsDevice 0 = 0
    ∧ (acceptDraftTokens specKernels scenarioDomain scenarioState
        scenarioInputs).state.outputs.numNewTokens.map (fun f => f 0) = some 2
    ∧ (acceptDraftTokens specKernels scenarioDomain scenarioState
        scenarioInputs).state.outputs.outputIds.map (fun f => [f 0, f 1]) = some [5, 7]
    ∧ ∀ p n, p < 3 →
      (verificationData scenarioDomain scenarioState scenarioInputs
        (Buffer.ofList [5, 7, 9, 7, 2] 0) (fun _ => 3)).IsAcceptedPrefix 0 p n →
      max 1 n ≤ 2 := by
  have hlen2 : (acceptDraftTokens specKernels scenarioDomain scenarioState
      scenarioInputs).state.outputs.numNewTokens.map (fun f => f 0) = some 2 := by decide
  refine ⟨by decide, hlen2, by decide, ?_⟩
  intro p n hp hn
  obtain ⟨best, len, numNewTokens, accepted, _, _, hnn, hlen, hacc, _, _, _, hmax, _⟩ :=
    acceptDraftTokens_selects_longest_path specKernels scenarioDomain scenarioState
      scenarioInputs 1 (Buffer.ofList [0] 0) (fun _ => 3) (Buffer.ofList [5, 7, 9, 7, 2] 0)
      rfl rfl rfl rfl rfl (by simp [scenarioState]) (by simp [scenarioState])
      (by simp [scenarioInputs])
      (by
        intro i j hi hj _
        omega)
      (by decide) 0 (by decide) (by decide)
  have hslot : (Buffer.ofList [0] 0 : Buffer Nat) 0 = 0 := rfl
  rw [hslot] at hlen hacc
  rw [hnn] at hlen2
  simp only [Option.map_some', Option.some.injEq] at hlen2
  rw [hlen2] at hlen
  have hlen' : len = 2 := by omega
  have hu := IsAcceptedPrefix_unique _ _ _ _ _ hn (hacc p)
  have := (hmax p hp (by
    show (p : Int) < 3
    omega)).1
  rw [hu]
  omega

end MedusaDecodingLayer
